import Mathlib

/-!
Verification development for the salon-finder repository.

The definitions below are a shallow embedding, in Lean, of the
TypeScript sources under `src/frontend/src/lib/`:

* `salonDataValidator.ts` — `cleanSalonName`, `isValidSalonName`,
  `validateSalonList`;
* `perplexityClient.ts` — `calculateBackoff`, `isRetryableError`, the
  retry control flow of `makeRequest` together with the
  `RetryableError`-catching caller loop, and `parseJsonResponse`;
* `rateLimiter.ts` — the `RateLimiter` state and its transition methods;
* `claudeProcessor.ts` — `formatBusinessHours` and the pure merge
  performed by `enrichWithGooglePlaces`;
* `serverCache.ts` — `getSalonDetailsCacheKey`-addressed reads with lazy
  expiry (`getSalonDetails`, `isExpired`).

JavaScript strings are modelled as Lean `String` (all the string data the
program manipulates is ASCII), JavaScript regular expressions by a small
explicit backtracking engine (`RE`, below) whose terms transliterate the
regex literals of the source, `JSON.parse` by an executable JSON parser,
`Date.now()` timestamps by `Int` milliseconds passed explicitly, and
`Math.random()` jitter by an explicit parameter.  Asynchrony plays no
role in any property considered here: every function involved is
sequential, so the embedding is by plain state passing.
-/

/-! ## String helpers (JavaScript string primitives) -/

/-- Characters of a string; JS strings are indexed char sequences. -/
def chars (s : String) : List Char := s.toList

/-- A string from characters. -/
def ofChars (cs : List Char) : String := String.mk cs

/-- The left brace character (written via its code point). -/
def lbrace : Char := Char.ofNat 123

/-- The right brace character (written via its code point). -/
def rbrace : Char := Char.ofNat 125

/-- The backtick character (written via its code point). -/
def btick : Char := Char.ofNat 96

/-- ASCII lower-casing of one character, as `String.prototype.toLowerCase`
acts on the ASCII range. -/
def lowerC (c : Char) : Char := c.toLower

/-- JS `s.toLowerCase()` (ASCII range). -/
def lowerS (s : String) : String := ofChars ((chars s).map lowerC)

/-- The character class `\s` of JS regexes, restricted to the ASCII range:
space, tab, newline, carriage return, vertical tab, form feed. -/
def jsSpace (c : Char) : Bool :=
  c = ' ' || c = '\t' || c = '\n' || c = '\r' || c = Char.ofNat 11 || c = Char.ofNat 12

/-- The character class `\w` of JS regexes: letters, digits, underscore. -/
def jsWord (c : Char) : Bool :=
  c.isAlpha || c.isDigit || c = '_'

/-- The character class `.` of JS regexes without the `s` flag: any
character except a line terminator. -/
def jsDot (c : Char) : Bool := c ≠ '\n' && c ≠ '\r'

/-- JS `String.prototype.trim` (ASCII whitespace). -/
def jsTrim (s : String) : String :=
  ofChars (((chars s).dropWhile jsSpace).reverse.dropWhile jsSpace |>.reverse)

/-- Whether `pat` is a prefix of `cs`. -/
def listStarts : List Char → List Char → Bool
  | [], _ => true
  | _ :: _, [] => false
  | p :: ps, c :: cs => p = c && listStarts ps cs

/-- JS `s.startsWith(pat)`. -/
def jsStarts (s pat : String) : Bool := listStarts (chars pat) (chars s)

/-- First index at which `pat` occurs in `cs`, if any (JS `indexOf`). -/
def subIdxAux (pat : List Char) : List Char → Nat → Option Nat
  | [], i => if pat.isEmpty then some i else none
  | c :: cs, i =>
    if listStarts pat (c :: cs) then some i else subIdxAux pat cs (i + 1)

/-- JS `s.indexOf(pat)` (as an `Option` instead of `-1`). -/
def jsIndexOf (s pat : String) : Option Nat := subIdxAux (chars pat) (chars s) 0

/-- JS `s.includes(pat)`. -/
def jsIncludes (s pat : String) : Bool := (jsIndexOf s pat).isSome

/-- All indices at which `pat` occurs in `cs` (also overlapping ones). -/
def subIdxAll (pat : List Char) : List Char → Nat → List Nat
  | [], i => if pat.isEmpty then [i] else []
  | c :: cs, i =>
    let rest := subIdxAll pat cs (i + 1)
    if listStarts pat (c :: cs) then i :: rest else rest

/-- JS `s.lastIndexOf(pat)` (as an `Option` instead of `-1`). -/
def jsLastIndexOf (s pat : String) : Option Nat :=
  (subIdxAll (chars pat) (chars s) 0).getLast?

/-- JS `s.indexOf(pat, from)`: first occurrence at index `from` or later. -/
def jsIndexOfFrom (s pat : String) (start : Nat) : Option Nat :=
  match subIdxAux (chars pat) ((chars s).drop start) 0 with
  | some i => some (start + i)
  | none => none

/-- First index of a character satisfying `p` (JS `indexOf` of a one-char
pattern generalised to a class). -/
def charIdxAux (p : Char → Bool) : List Char → Nat → Option Nat
  | [], _ => none
  | c :: cs, i => if p c then some i else charIdxAux p cs (i + 1)

/-- JS `s.indexOf(c)` for a single character. -/
def jsIndexOfC (s : String) (c : Char) : Option Nat :=
  charIdxAux (· = c) (chars s) 0

/-- JS `s.lastIndexOf(c)` for a single character. -/
def jsLastIndexOfC (s : String) (c : Char) : Option Nat :=
  match charIdxAux (· = c) (chars s).reverse 0 with
  | some i => some (s.length - 1 - i)
  | none => none

/-- JS `s.substring(a, b)` for `a ≤ b` (take the slice `[a, b)`). -/
def jsSubstring (s : String) (a b : Nat) : String :=
  ofChars (((chars s).drop a).take (b - a))

/-- JS `s.substring(a)` (drop the first `a` characters). -/
def jsDrop (s : String) (a : Nat) : String := ofChars ((chars s).drop a)

/-- JS `s.split('\n')`. -/
def jsSplitNl (s : String) : List String := s.splitOn "\n"

/-- Whether the string is non-empty and all digits (the regex `^\d+$`). -/
def allDigits (s : String) : Bool :=
  !(chars s).isEmpty && (chars s).all Char.isDigit

/-! ## A small backtracking regex engine

Each JS regex literal used by the source is transliterated into an `RE`
term.  The engine implements the exact backtracking search order of JS
regexes for the constructs the source uses: ordered alternation, greedy
and lazy repetition of a character class, greedy option, literals
(case-sensitive and case-insensitive) and character classes. -/

inductive RE where
  /-- Matches the empty string. -/
  | eps : RE
  /-- One character of a class, e.g. `\d`, `[^)]`. -/
  | cls (p : Char → Bool) : RE
  /-- A case-sensitive literal. -/
  | lit (s : String) : RE
  /-- A case-insensitive literal (regex `i` flag). -/
  | liti (s : String) : RE
  /-- Concatenation. -/
  | seq (a b : RE) : RE
  /-- Ordered alternation `a|b`. -/
  | alt (a b : RE) : RE
  /-- Greedy `p*` over a character class. -/
  | starG (p : Char → Bool) : RE
  /-- Lazy `p*?` over a character class. -/
  | starL (p : Char → Bool) : RE
  /-- Greedy `p+` over a character class. -/
  | plusG (p : Char → Bool) : RE
  /-- Lazy `p+?` over a character class. -/
  | plusL (p : Char → Bool) : RE
  /-- Greedy optional `a?`. -/
  | opt (a : RE) : RE

/-- Sequence a list of regex pieces. -/
def reCat (rs : List RE) : RE := rs.foldr RE.seq RE.eps

/-- Ordered alternation over a list (first alternative preferred, as in a
JS alternation). -/
def reAlts : List RE → RE
  | [] => RE.cls (fun _ => false)
  | [r] => r
  | r :: rs => RE.alt r (reAlts rs)

/-- Match a literal: consume `pat` (case-insensitively when `ci`) from the
front of `cs`, returning the rest. -/
def litRun (ci : Bool) : List Char → List Char → Option (List Char)
  | [], cs => some cs
  | _ :: _, [] => none
  | p :: ps, c :: cs =>
    if (if ci then lowerC p = lowerC c else p = c) then litRun ci ps cs else none

/-- Greedy star: consume as many `p`-characters as possible, backtracking
to shorter matches if the continuation fails. -/
def starGRun (p : Char → Bool) : List Char → (List Char → Option (List Char)) → Option (List Char)
  | [], k => k []
  | c :: cs, k =>
    if p c then
      match starGRun p cs k with
      | some r => some r
      | none => k (c :: cs)
    else k (c :: cs)

/-- Lazy star: consume as few `p`-characters as possible, extending the
match only if the continuation fails. -/
def starLRun (p : Char → Bool) : List Char → (List Char → Option (List Char)) → Option (List Char)
  | [], k => k []
  | c :: cs, k =>
    match k (c :: cs) with
    | some r => some r
    | none => if p c then starLRun p cs k else none

/-- Run a regex against the front of `cs` with continuation `k`, in JS
backtracking order; the result is `k`'s answer on the suffix left by the
first overall successful match. -/
def reRun : RE → List Char → (List Char → Option (List Char)) → Option (List Char)
  | .eps, cs, k => k cs
  | .cls p, cs, k =>
    match cs with
    | [] => none
    | c :: rest => if p c then k rest else none
  | .lit s, cs, k =>
    match litRun false (chars s) cs with
    | some rest => k rest
    | none => none
  | .liti s, cs, k =>
    match litRun true (chars s) cs with
    | some rest => k rest
    | none => none
  | .seq a b, cs, k => reRun a cs (fun rest => reRun b rest k)
  | .alt a b, cs, k =>
    match reRun a cs k with
    | some r => some r
    | none => reRun b cs k
  | .starG p, cs, k => starGRun p cs k
  | .starL p, cs, k => starLRun p cs k
  | .plusG p, cs, k =>
    match cs with
    | [] => none
    | c :: rest => if p c then starGRun p rest k else none
  | .plusL p, cs, k =>
    match cs with
    | [] => none
    | c :: rest => if p c then starLRun p rest k else none
  | .opt a, cs, k =>
    match reRun a cs k with
    | some r => some r
    | none => k cs

/-- Whether `r` matches at the very start of `cs` (a `^`-anchored test). -/
def reHead (r : RE) (cs : List Char) : Bool := (reRun r cs some).isSome

/-- Whether `r` matches the whole of `cs` (a `^...$`-anchored test). -/
def reWhole (r : RE) (cs : List Char) : Bool :=
  (reRun r cs (fun rest => if rest.isEmpty then some [] else none)).isSome

/-- Whether `r` matches somewhere in `cs` (an unanchored `test`). -/
def reFindAux (r : RE) : List Char → Bool
  | [] => reHead r []
  | c :: cs => reHead r (c :: cs) || reFindAux r cs

/-- JS `regex.test(s)` for an unanchored regex. -/
def reTest (r : RE) (s : String) : Bool := reFindAux r (chars s)

/-- JS `/^.../.test(s)`: anchored at the start only. -/
def reTestHead (r : RE) (s : String) : Bool := reHead r (chars s)

/-- JS `/^...$/.test(s)`: anchored at both ends. -/
def reTestWhole (r : RE) (s : String) : Bool := reWhole r (chars s)

/-- Whether some suffix of `cs` is matched entirely by `r` (used for
paren-content checks of the form `[^)]*(?:kw)\)`, where the keyword
alternation must end exactly where the content ends). -/
def reSuffixAux (r : RE) : List Char → Bool
  | [] => reWhole r []
  | c :: cs => reWhole r (c :: cs) || reSuffixAux r cs

/-- Whether `r` matches a suffix of `s` exactly to its end. -/
def reSuffix (r : RE) (s : String) : Bool := reSuffixAux r (chars s)

/-- One pass of a global delete-replace (`s.replace(re, '')` with the `g`
flag): scan left to right, delete every leftmost non-overlapping match.
The fuel argument bounds recursion; it is initialised to `length + 1`,
which suffices because every step either consumes the matched non-empty
prefix or emits one character. -/
def reKillFuel (r : RE) : Nat → List Char → List Char
  | 0, cs => cs
  | _, [] => []
  | fuel + 1, c :: cs =>
    match reRun r (c :: cs) some with
    | some rest =>
      if rest.length ≤ cs.length then reKillFuel r fuel rest
      else c :: reKillFuel r fuel cs
    | none => c :: reKillFuel r fuel cs

/-- JS `s.replace(re, '')` with the `g` flag (every match deleted). -/
def reKill (r : RE) (s : String) : String :=
  ofChars (reKillFuel r ((chars s).length + 1) (chars s))

/-- JS `s.replace(re, '')` without the `g` flag and with a `^` anchor:
delete the match at the start, if any. -/
def reKillHead (r : RE) (s : String) : String :=
  match reRun r (chars s) some with
  | some rest => ofChars rest
  | none => s

/-! ## JSON values and `JSON.parse`

`parseJsonResponse` and the cache/merge layers move `JSON.parse` results
around.  JSON numbers are kept in exact scaled-decimal form `m * 10^e`
(JS represents them as doubles; no claim below compares numerically equal
numbers written differently, so the exact form is faithful for every
comparison made). -/

inductive Json where
  /-- The JSON literal `null`. -/
  | null : Json
  /-- A JSON boolean. -/
  | bool (b : Bool) : Json
  /-- A JSON number with value `m * 10 ^ e`. -/
  | num (m : Int) (e : Int) : Json
  /-- A JSON string. -/
  | str (s : String) : Json
  /-- A JSON array. -/
  | arr (xs : List Json) : Json
  /-- A JSON object, fields in source order (later duplicates win on
  lookup, as in `JSON.parse`). -/
  | obj (fields : List (String × Json)) : Json

/-- Integer-valued JSON number. -/
def Json.int (n : Int) : Json := .num n 0

/-- Whitespace skipped by `JSON.parse`. -/
def jsonWs (c : Char) : Bool := c = ' ' || c = '\t' || c = '\n' || c = '\r'

/-- Drop leading JSON whitespace. -/
def skipWs (cs : List Char) : List Char := cs.dropWhile jsonWs

/-- Hex digit value (case handled by lower-casing first). -/
def hexVal (c : Char) : Option Nat :=
  let l := lowerC c
  if l.isDigit then some (l.toNat - 48)
  else if 'a' ≤ l && l ≤ 'f' then some (l.toNat - 97 + 10)
  else none

/-- Parse the body of a JSON string after the opening quote, handling the
escapes of the JSON grammar; returns the string and the rest. -/
def parseJStrAux : List Char → List Char → Option (String × List Char)
  | _, [] => none
  | acc, c :: cs =>
    if c = '"' then some (ofChars acc.reverse, cs)
    else if c = '\\' then
      match cs with
      | [] => none
      | e :: cs2 =>
        if e = '"' then parseJStrAux ('"' :: acc) cs2
        else if e = '\\' then parseJStrAux ('\\' :: acc) cs2
        else if e = '/' then parseJStrAux ('/' :: acc) cs2
        else if e = 'b' then parseJStrAux (Char.ofNat 8 :: acc) cs2
        else if e = 'f' then parseJStrAux (Char.ofNat 12 :: acc) cs2
        else if e = 'n' then parseJStrAux ('\n' :: acc) cs2
        else if e = 'r' then parseJStrAux ('\r' :: acc) cs2
        else if e = 't' then parseJStrAux ('\t' :: acc) cs2
        else if e = 'u' then
          match cs2 with
          | h1 :: h2 :: h3 :: h4 :: cs3 =>
            match hexVal h1, hexVal h2, hexVal h3, hexVal h4 with
            | some a, some b, some c', some d =>
              parseJStrAux (Char.ofNat (((a * 16 + b) * 16 + c') * 16 + d) :: acc) cs3
            | _, _, _, _ => none
          | _ => none
        else none
    else if c.toNat < 32 then none
    else parseJStrAux (c :: acc) cs

/-- Numeric value of a digit run. -/
def digitsVal (ds : List Char) : Nat :=
  ds.foldl (fun n c => n * 10 + (c.toNat - '0'.toNat)) 0

/-- Parse a JSON number `-?(0|[1-9]\d*)(\.\d+)?([eE][+-]?\d+)?`, returning
mantissa and decimal exponent. -/
def parseJNum (cs : List Char) : Option (Int × Int × List Char) :=
  let (neg, cs1) :=
    match cs with
    | '-' :: rest => (true, rest)
    | _ => (false, cs)
  let intDs := cs1.takeWhile Char.isDigit
  let cs2 := cs1.dropWhile Char.isDigit
  if intDs.isEmpty then none
  else if intDs.length > 1 && intDs.headD '0' = '0' then none
  else
    let (fracDs, cs3) :=
      match cs2 with
      | '.' :: rest => (rest.takeWhile Char.isDigit, rest.dropWhile Char.isDigit)
      | _ => ([], cs2)
    if cs2.headD ' ' = '.' && fracDs.isEmpty then none
    else
      let mant : Int := Int.ofNat (digitsVal (intDs ++ fracDs))
      let mant := if neg then -mant else mant
      match cs3 with
      | e :: rest =>
        if e = 'e' || e = 'E' then
          let (eneg, rest1) :=
            match rest with
            | '-' :: r => (true, r)
            | '+' :: r => (false, r)
            | _ => (false, rest)
          let expDs := rest1.takeWhile Char.isDigit
          let rest2 := rest1.dropWhile Char.isDigit
          if expDs.isEmpty then none
          else
            let ev : Int := Int.ofNat (digitsVal expDs)
            let ev := if eneg then -ev else ev
            some (mant, ev - Int.ofNat fracDs.length, rest2)
        else some (mant, -Int.ofNat fracDs.length, cs3)
      | [] => some (mant, -Int.ofNat fracDs.length, [])

mutual

/-- Parse one JSON value (fuel-bounded recursive descent; the fuel is
initialised above the input length, which bounds nesting and iteration). -/
def parseJVal : Nat → List Char → Option (Json × List Char)
  | 0, _ => none
  | fuel + 1, cs =>
    match skipWs cs with
    | [] => none
    | c :: rest =>
      if c = '"' then
        match parseJStrAux [] rest with
        | some (s, r) => some (.str s, r)
        | none => none
      else if c = '[' then
        match skipWs rest with
        | ']' :: r => some (.arr [], r)
        | _ => parseJItems fuel (skipWs rest)
      else if c = lbrace then
        match skipWs rest with
        | c2 :: r =>
          if c2 = rbrace then some (.obj [], r)
          else parseJMembers fuel (skipWs rest)
        | [] => none
      else if listStarts (chars "true") (c :: rest) then
        some (.bool true, (c :: rest).drop 4)
      else if listStarts (chars "false") (c :: rest) then
        some (.bool false, (c :: rest).drop 5)
      else if listStarts (chars "null") (c :: rest) then
        some (.null, (c :: rest).drop 4)
      else
        match parseJNum (c :: rest) with
        | some (m, e, r) => some (.num m e, r)
        | none => none

/-- Parse the elements of a non-empty JSON array up to the closing
bracket. -/
def parseJItems : Nat → List Char → Option (Json × List Char)
  | 0, _ => none
  | fuel + 1, cs =>
    match parseJVal fuel cs with
    | none => none
    | some (v, rest) =>
      match skipWs rest with
      | ',' :: r =>
        match parseJItems fuel r with
        | some (.arr vs, r2) => some (.arr (v :: vs), r2)
        | _ => none
      | ']' :: r => some (.arr [v], r)
      | _ => none

/-- Parse the members of a non-empty JSON object up to the closing
brace. -/
def parseJMembers : Nat → List Char → Option (Json × List Char)
  | 0, _ => none
  | fuel + 1, cs =>
    match skipWs cs with
    | '"' :: rest =>
      match parseJStrAux [] rest with
      | none => none
      | some (key, r1) =>
        match skipWs r1 with
        | ':' :: r2 =>
          match parseJVal fuel r2 with
          | none => none
          | some (v, r3) =>
            match skipWs r3 with
            | ',' :: r4 =>
              match parseJMembers fuel r4 with
              | some (.obj fs, r5) => some (.obj ((key, v) :: fs), r5)
              | _ => none
            | c :: r4 =>
              if c = rbrace then some (.obj [(key, v)], r4) else none
            | [] => none
        | _ => none
    | _ => none

end

/-- `JSON.parse(s)`: one JSON value with only whitespace around it. -/
def jsonParse (s : String) : Option Json :=
  match parseJVal ((chars s).length + 2) (chars s) with
  | some (v, rest) => if (skipWs rest).isEmpty then some v else none
  | none => none

/-- Object field lookup, later duplicate keys winning as in `JSON.parse`. -/
def jGet (j : Json) (key : String) : Option Json :=
  match j with
  | .obj fs => (fs.reverse.find? (fun f => f.1 = key)).map Prod.snd
  | _ => none

/-- JS truthiness of a JSON value (`undefined` is represented as
`Option.none` at use sites). -/
def jTruthy : Json → Bool
  | .null => false
  | .bool b => b
  | .num m _ => m ≠ 0
  | .str s => s ≠ ""
  | .arr _ => true
  | .obj _ => true

/-! ## Word-boundary search helpers

Some validator regexes use `\b`.  Every such pattern starts (and, where a
trailing `\b` appears, ends) with a word character, so the boundary is
equivalent to the neighbouring character being absent or a non-word
character. -/

/-- Match `r` at the start of `cs`; when `endWB`, additionally require a
word boundary right after the match (pattern assumed to end in a word
character). -/
def reHeadEnd (r : RE) (endWB : Bool) (cs : List Char) : Bool :=
  (reRun r cs (fun rest =>
    if !endWB || rest.isEmpty || !jsWord (rest.headD ' ') then some rest else none)).isSome

/-- Unanchored search for `\b<r>` (and `\b` after, when `endWB`): try every
position whose preceding character is absent or non-word. -/
def reWbAux (r : RE) (endWB : Bool) : Option Char → List Char → Bool
  | _, [] => false
  | prev, c :: cs =>
    ((match prev with
      | none => true
      | some p => !jsWord p) && reHeadEnd r endWB (c :: cs))
    || reWbAux r endWB (some c) cs

/-- JS `re.test(s)` for a regex of the form `\b...` (or `\b...\b`). -/
def reTestWB (r : RE) (endWB : Bool) (s : String) : Bool :=
  reWbAux r endWB none (chars s)

/-! ## `salonDataValidator.ts`: `cleanSalonName` -/

/-- Shorthand: `\s+`. -/
def ws1 : RE := .plusG jsSpace

/-- Shorthand: `\s*`. -/
def ws0 : RE := .starG jsSpace

/-- Shorthand: `[^)]*`. -/
def noParen : RE := .starG (· ≠ ')')

/-- Shorthand: `\w+`. -/
def word1 : RE := .plusG jsWord

/-- Shorthand: `\d+`. -/
def dig1 : RE := .plusG Char.isDigit

/-- Shorthand: a case-insensitive `xyz?` (literal with optional last
letter, as in `Salons?`). -/
def opts (stem tail : String) : RE := .seq (.liti stem) (.opt (.liti tail))

/-- The regex
`/\s*\([^)]*(?:already listed|duplicate|incomplete|appears to be|same as|excluded|barber|barbershop|also listed|also offers|not directly relevant|not a spa|need to check|in\s+\w+,?\s*not\s+Newtown|in\s+\w+,?\s*excluded)\)/gi`
(parenthetical annotations; the keyword alternation must end right before
the closing parenthesis). -/
def reNote1 : RE :=
  reCat [ws0, .lit "(", noParen,
    reAlts [.liti "already listed", .liti "duplicate", .liti "incomplete",
      .liti "appears to be", .liti "same as", .liti "excluded", .liti "barber",
      .liti "barbershop", .liti "also listed", .liti "also offers",
      .liti "not directly relevant", .liti "not a spa", .liti "need to check",
      reCat [.liti "in", ws1, word1, .opt (.lit ","), ws0, .liti "not", ws1, .liti "Newtown"],
      reCat [.liti "in", ws1, word1, .opt (.lit ","), ws0, .liti "excluded"]],
    .lit ")"]

/-- The regex
`/\s*\([^)]*(?:not\s+in|in\s+(?:Glebe|Petersham|Erskineville|Eveleigh|Marrickville|Camperdown|Stanmore|Enmore|Redfern|Balmain|Chippendale|Pyrmont|Haymarket|Sydney CBD|Waterloo))[^)]*\)/gi`
(location notes marking the salon as outside the target area). -/
def reNote2 : RE :=
  reCat [ws0, .lit "(", noParen,
    reAlts [reCat [.liti "not", ws1, .liti "in"],
      reCat [.liti "in", ws1,
        reAlts [.liti "Glebe", .liti "Petersham", .liti "Erskineville", .liti "Eveleigh",
          .liti "Marrickville", .liti "Camperdown", .liti "Stanmore", .liti "Enmore",
          .liti "Redfern", .liti "Balmain", .liti "Chippendale", .liti "Pyrmont",
          .liti "Haymarket", .liti "Sydney CBD", .liti "Waterloo"]]],
    noParen, .lit ")"]

/-- The regex `/\s*\((?:Newtown|Newtown\s+location|has\s+a\s+Newtown\s+location)\)/gi`. -/
def reNote3 : RE :=
  reCat [ws0, .lit "(",
    reAlts [.liti "Newtown",
      reCat [.liti "Newtown", ws1, .liti "location"],
      reCat [.liti "has", ws1, .liti "a", ws1, .liti "Newtown", ws1, .liti "location"]],
    .lit ")"]

/-- The regex `/\s*\((?:hair\s+salon|nail\s+salon|beauty\s+salon|spa|massage)\)/gi`. -/
def reNote4 : RE :=
  reCat [ws0, .lit "(",
    reAlts [reCat [.liti "hair", ws1, .liti "salon"],
      reCat [.liti "nail", ws1, .liti "salon"],
      reCat [.liti "beauty", ws1, .liti "salon"],
      .liti "spa", .liti "massage"],
    .lit ")"]

/-- The regex `/\s*\([^)]*(?:this|though|as|but|may|need|based|confirmed)\)/gi`. -/
def reNote5 : RE :=
  reCat [ws0, .lit "(", noParen,
    reAlts [.liti "this", .liti "though", .liti "as", .liti "but", .liti "may",
      .liti "need", .liti "based", .liti "confirmed"],
    .lit ")"]

/-- The regex
`/\s*-\s*(?:already listed|duplicate|incomplete|appears to be|same as|excluded|need to check).*/gi`
(trailing dash annotations, eating the rest of the line). -/
def reNote6 : RE :=
  reCat [ws0, .lit "-", ws0,
    reAlts [.liti "already listed", .liti "duplicate", .liti "incomplete",
      .liti "appears to be", .liti "same as", .liti "excluded", .liti "need to check"],
    .starG jsDot]

/-- Remove a trailing run of two or more dots (the regex `/\.{2,}$/`). -/
def stripTrailingDots (s : String) : String :=
  let rev := (chars s).reverse
  let k := (rev.takeWhile (· = '.')).length
  if 2 ≤ k then ofChars ((rev.drop k).reverse) else s

/-- Collapse every whitespace run to a single space (the replace
`/\s+/g → ' '`); the flag records whether the previous character was part
of a run. -/
def collapseWsAux : Bool → List Char → List Char
  | _, [] => []
  | inRun, c :: cs =>
    if jsSpace c then
      if inRun then collapseWsAux true cs else ' ' :: collapseWsAux true cs
    else c :: collapseWsAux false cs

/-- JS `s.replace(/\s+/g, ' ')`. -/
def collapseWs (s : String) : String := ofChars (collapseWsAux false (chars s))

/-- `cleanSalonName` of `salonDataValidator.ts`: strip annotations and
location notes, expand a bare "bella", trim trailing ellipses, collapse
whitespace. -/
def cleanSalonName (name : String) : String :=
  let cleaned := jsTrim name
  let cleaned := reKill reNote1 cleaned
  let cleaned := reKill reNote2 cleaned
  let cleaned := reKill reNote3 cleaned
  let cleaned := reKill reNote4 cleaned
  let cleaned := reKill reNote5 cleaned
  let cleaned := reKill reNote6 cleaned
  let cleaned := if lowerS cleaned = "bella" then "Bella Beauty Salon" else cleaned
  let cleaned := stripTrailingDots cleaned
  jsTrim (collapseWs cleaned)

/-- The composition of `cleanSalonName`'s annotation-stripping steps (the
part of the pipeline that runs before the bare-"bella" special case). -/
def annotStrip (name : String) : String :=
  reKill reNote6 (reKill reNote5 (reKill reNote4 (reKill reNote3
    (reKill reNote2 (reKill reNote1 (jsTrim name))))))

/-! ## `salonDataValidator.ts`: `isValidSalonName` -/

/-- The first block of AI-reasoning rejections in `isValidSalonName`
(`startsWith`/`includes` checks, all case-sensitive as in the source). -/
def aiReasoning1 (t : String) : Bool :=
  jsStarts t "They want" ||
  jsStarts t "That's " ||
  jsStarts t "So I have" ||
  jsIncludes t "businesses that are confirmed" ||
  jsIncludes t "user asked for" ||
  jsIncludes t "Let me" ||
  jsIncludes t "I need to" ||
  jsIncludes t "I have" ||
  jsIncludes t "I've" ||
  jsIncludes t "I think" ||
  jsIncludes t "I will" ||
  jsIncludes t "I'll"

/-- The regex
`/^\d+[\s\/]\w+\s+(Street|St|Road|Rd|Avenue|Ave|Lane|Ln|Drive|Dr|Place|Pl),?\s+\w+$/i`
(an address rather than a business name). -/
def reAddress : RE :=
  reCat [dig1, .cls (fun c => jsSpace c || c = '/'), word1, ws1,
    reAlts [.liti "Street", .liti "St", .liti "Road", .liti "Rd", .liti "Avenue",
      .liti "Ave", .liti "Lane", .liti "Ln", .liti "Drive", .liti "Dr",
      .liti "Place", .liti "Pl"],
    .opt (.lit ","), ws1, word1]

/-- The service-description starts rejected by `isValidSalonName` (the
alternation of the regex `/^(Beard Trimming|...|Rejuvenating Facial)/i`). -/
def serviceStarts : List String :=
  ["Beard Trimming", "Men's Shaving", "Head Shave", "Men's Haircut", "Gel Nails",
   "Manicure", "Nail Art", "Pedicure", "Fish Pedicure", "Dermaplaning",
   "Microdermabrasion", "Threading", "Acne Facial", "Henna Tattoos",
   "Eyelash Extensions", "Brow Lamination", "Eyebrow Shaping", "LED Light Therapy",
   "Hair Transplants", "Laser Hair Removal", "Dermal Fillers", "Blow Dry",
   "Hair Extensions", "Balayage", "Children's Haircut", "Makeup Service", "Facial",
   "Brow Shape", "Rejuvenating Facial"]

/-- The regex `/^(Beard Trimming|...)/i` as an `RE`. -/
def reService : RE := reAlts (serviceStarts.map RE.liti)

/-- The case-sensitive regex `/\bin\s+[A-Z][a-z]+,?\s+(NSW|VIC|QLD|SA|WA|TAS|NT|ACT)/`
(first of the long-name location patterns). -/
def reInSuburbState : RE :=
  reCat [.lit "in", ws1, .cls (fun c => 'A' ≤ c && c ≤ 'Z'),
    .plusG (fun c => 'a' ≤ c && c ≤ 'z'), .opt (.lit ","), ws1,
    reAlts [.lit "NSW", .lit "VIC", .lit "QLD", .lit "SA", .lit "WA",
      .lit "TAS", .lit "NT", .lit "ACT"]]

/-- Indices of word-bounded, case-insensitive occurrences of "Australia"
(for the pattern `/\bAustralia\b.*\bAustralia\b/i`). -/
def australiaIdx (s : String) : List Nat :=
  (List.range s.length).filter (fun i =>
    (decide (i = 0) || !jsWord (((chars s).drop (i - 1)).headD ' ')) &&
    listStarts (chars "australia") ((chars (lowerS s)).drop i) &&
    (((chars s).drop (i + 9)).isEmpty || !jsWord (((chars s).drop (i + 9)).headD ' ')))

/-- The regex `/\bAustralia\b.*\bAustralia\b/i`: two word-bounded
occurrences with no line break between them (`.` does not match a line
terminator). -/
def hasTwoAustralias (s : String) : Bool :=
  (australiaIdx s).any (fun i =>
    (australiaIdx s).any (fun j =>
      i + 9 ≤ j && ((((chars s).drop (i + 9)).take (j - (i + 9))).all jsDot)))

/-- The regex `/\b(locate|find|search|list)\b/i`. -/
def reActionWord : RE :=
  reAlts [.liti "locate", .liti "find", .liti "search", .liti "list"]

/-- The regex `/\b(all|every|each|any)\s+salons?\b/i`. -/
def reQuantifiedSalons : RE :=
  reCat [reAlts [.liti "all", .liti "every", .liti "each", .liti "any"],
    ws1, opts "salon" "s"]

/-- The long-name scrutiny of `isValidSalonName`: any of the four
`locationPatterns` matching (applied only when the trimmed length exceeds
50). -/
def longNameSuspicious (t : String) : Bool :=
  reTestWB reInSuburbState false t ||
  hasTwoAustralias t ||
  reTestWB reActionWord true t ||
  reTestWB reQuantifiedSalons true t

/-- The too-generic single names rejected unless allow-listed. -/
def genericOneWord (t : String) : Bool :=
  lowerS t = "new" ||
  lowerS t = "bella" ||
  lowerS t = "african salon" ||
  lowerS t = "now" ||
  lowerS t = "menzone" ||
  reTestWhole (reCat [.cls (fun c => 'A' ≤ c && c ≤ 'Z'),
    .plusG (fun c => 'a' ≤ c && c ≤ 'z')]) t

/-- The allow-listed single-word salon names. -/
def validSingleWords : List String := ["bob", "scissorhands", "noddys", "guilles"]

/-- The second block of AI-reasoning `includes` checks. -/
def aiReasoning2 (t : String) : Bool :=
  jsIncludes t "need to exclude" ||
  jsIncludes t "need to check" ||
  jsIncludes t "already listed" ||
  jsIncludes t "appears to be" ||
  jsIncludes t "location not specified" ||
  jsIncludes t "but listed" ||
  jsIncludes t "as per search results" ||
  jsIncludes t "I need to" ||
  jsIncludes t "Let me" ||
  jsIncludes t "Now I" ||
  jsIncludes t "should be excluded" ||
  jsIncludes t "verify which" ||
  jsIncludes t "go through" ||
  jsIncludes t "compile this list" ||
  jsIncludes t "extract the relevant" ||
  jsIncludes t "check if" ||
  jsIncludes t "organize them" ||
  jsIncludes t "remove duplicates" ||
  jsIncludes t "based on the criteria" ||
  jsIncludes t "category:" ||
  jsIncludes t "categories:"

/-- The `('ll|'ll|ll)` alternation appearing in several patterns. -/
def reLl : RE := reAlts [.liti "'ll", .liti "'ll", .liti "ll"]

/-- The `invalidPatterns` array of `isValidSalonName`, each with its
anchoring: `whole` for `^...$` patterns, `head` for `^...` patterns, and
the one unanchored `\b`-pattern handled separately below. -/
def invalidWhole : List RE :=
  [reCat [.opt (.lit "["), dig1, .opt (.lit "]")],
   reCat [ws0, .lit "<", .starG jsDot, .lit ">", ws0],
   reCat [.liti "salon", ws1, .liti "name", ws1, dig1],
   reCat [.liti "beauty", ws1, opts "salon" "s", .opt (.lit ":")],
   reCat [.liti "hair", ws1, opts "salon" "s", .opt (.lit ":")],
   reCat [.liti "nail", ws1, opts "salon" "s", .opt (.lit ":")],
   reCat [.liti "day", ws1, opts "spa" "s", .starG jsDot, .opt (.lit ":")],
   reCat [.liti "lash", ws1, .liti "and", ws1, .liti "brow", .starG jsDot, .opt (.lit ":")],
   reCat [.liti "skin", ws1, opts "clinic" "s", .starG jsDot, .opt (.lit ":")],
   reCat [opts "spa" "s", .opt (.lit ":")]]

/-- The start-anchored members of `invalidPatterns`, in source order. -/
def invalidHead : List RE :=
  [reCat [.liti "from", ws1, .lit "["],
   reCat [.liti "reference", ws1],
   reCat [.liti "result", ws1, dig1],
   reCat [.liti "okay", ws0, .opt (.lit ","), ws0, .liti "i"],
   reCat [.liti "the", ws1, .liti "user"],
   reCat [.liti "here", ws1, reAlts [.liti "are", .liti "is"]],
   reCat [.liti "based", ws1, .liti "on"],
   reCat [.liti "according", ws1, .liti "to"],
   .lit "```",
   reCat [.liti "list", ws1, .opt (reCat [.liti "of", ws1]), .starG jsDot,
     opts "salon" "s", ws1, .liti "in"],
   reCat [.liti "find", ws1, .starG jsDot, opts "salon" "s", ws1, .liti "in"],
   reCat [.liti "search", ws1, .liti "for", ws1, .starG jsDot, opts "salon" "s"],
   reCat [.liti "example", ws1, .liti "salon"],
   reCat [.liti "let", ws1, .liti "me", ws1],
   reCat [.liti "i", ws1, reAlts [.liti "need", .liti "will", .liti "should", .liti "must"], ws1],
   reCat [.liti "now", ws1, .liti "i", reLl, ws1],
   reCat [.liti "exclude", ws1],
   reCat [.liti "deduplicate", ws1],
   reCat [.liti "use", ws1, .liti "the", ws1, .liti "exact"],
   reCat [.liti "all", ws1, opts "other" "s", ws1, .liti "appear"],
   reCat [.liti "i", reLl, ws1, .liti "use", ws1, .liti "the"],
   reCat [.liti "test", ws1, .liti "salon"],
   reCat [.liti "sample", ws1, .liti "salon"],
   .liti "placeholder",
   reCat [.liti "beauty", ws1, .liti "and", ws1, .liti "hair", ws1, opts "salon" "s", ws1, .liti "in"],
   reCat [.liti "hair", ws1, opts "salon" "s", ws1, .liti "in"],
   reCat [.liti "nail", ws1, opts "salon" "s", ws1, .liti "in"],
   reCat [.liti "all", ws1, opts "salon" "s", ws1, .liti "in"],
   reCat [.liti "this", ws1, .liti "gives", ws1, .liti "me"],
   reCat [.liti "after", ws1, .liti "removing"],
   reCat [.liti "title", ws1, .lit "("],
   reCat [.liti "summary", ws1, .liti "paragraph"],
   reCat [.liti "main", ws1, .liti "body"],
   reCat [.liti "conclusion", ws1, .lit "("],
   reCat [.liti "i", reLl, ws1, .liti "make", ws1, .liti "sure"],
   reCat [.liti "newtown's", ws1, .liti "hair", ws1, .liti "salon", ws1, .liti "scene"]]

/-- The alternation `(NSW|VIC|QLD|SA|WA|TAS|NT|ACT)` (case-insensitive). -/
def reState : RE :=
  reAlts [.liti "NSW", .liti "VIC", .liti "QLD", .liti "SA", .liti "WA",
    .liti "TAS", .liti "NT", .liti "ACT"]

/-- The unanchored member of `invalidPatterns`:
`/\b(NSW|VIC|QLD|SA|WA|TAS|NT|ACT),\s+Australia,?\s+(NSW|...)/i`. -/
def reDupStates : RE :=
  reCat [reState, .lit ",", ws1, .liti "Australia", .opt (.lit ","), ws1, reState]

/-- Whether any `invalidPatterns` member matches. -/
def invalidPatternHit (t : String) : Bool :=
  invalidWhole.any (fun r => reTestWhole r t) ||
  invalidHead.any (fun r => reTestHead r t) ||
  reTestWB reDupStates false t

/-- The regex `/[a-zA-Z]/`. -/
def hasLetter (t : String) : Bool :=
  (chars t).any (fun c => ('a' ≤ c && c ≤ 'z') || ('A' ≤ c && c ≤ 'Z'))

/-- The `genericTerms` array: names equal (case-insensitively) to one of
these are rejected. -/
def genericTerms : List String :=
  ["thinking", "processing", "loading", "error", "undefined",
   "null", "none", "n/a", "not found", "unavailable",
   "hair salons", "beauty salons", "nail salons", "day spas",
   "lash studios", "skin clinics", "wellness centers", "massage centers",
   "lash extension studios", "massage parlors", "waxing and hair removal clinics",
   "makeup studios", "hair salons and barbershops"]

/-- `isValidSalonName` of `salonDataValidator.ts` on a string argument:
the chain of early `return false` checks, in source order, ending in
`return true`. -/
def isValidSalonName (name : String) : Bool :=
  let t := jsTrim name
  !(t.length < 2 || t.length > 100) &&
  !aiReasoning1 t &&
  !reTestWhole reAddress t &&
  !reTestHead reService t &&
  !(t.length > 50 && longNameSuspicious t) &&
  !allDigits t &&
  !(genericOneWord t && !validSingleWords.contains (lowerS t)) &&
  !aiReasoning2 t &&
  !invalidPatternHit t &&
  hasLetter t &&
  !genericTerms.contains (lowerS t)

/-- `isValidSalonName` on an arbitrary (`any`-typed) value: non-strings
are rejected by the leading `typeof` check. -/
def isValidSalonNameJ : Json → Bool
  | .str s => isValidSalonName s
  | _ => false

/-! ## `salonDataValidator.ts`: `validateSalonList` -/

/-- Outcome record of the validators (`ValidationResult` with `cleaned`
specialised to the name-list shape it has on this code path). -/
structure ValidationResult where
  isValid : Bool
  cleaned : List String
  issues : List String
deriving Repr, DecidableEq

/-- A rough `JSON.stringify` used only to build issue messages for
rejected non-string items (number formatting simplified to scaled-decimal
form; no claim below inspects these messages). -/
def jStringifyFuel : Nat → Json → String
  | 0, _ => ""
  | _, .null => "null"
  | _, .bool true => "true"
  | _, .bool false => "false"
  | _, .num m e => toString m ++ "e" ++ toString e
  | _, .str s => "\"" ++ s ++ "\""
  | fuel + 1, .arr xs =>
    "[" ++ String.intercalate "," (xs.map (jStringifyFuel fuel)) ++ "]"
  | fuel + 1, .obj fs =>
    ofChars [lbrace] ++
      String.intercalate "," (fs.map (fun f => "\"" ++ f.1 ++ "\":" ++ jStringifyFuel fuel f.2)) ++
      ofChars [rbrace]

/-- `JSON.stringify` (see `jStringifyFuel`). -/
def jStringify (j : Json) : String := jStringifyFuel 1000 j

/-- The category-header / meta-text skip checks applied to string items of
the list (each line cites the regex or `includes` call of the source, in
order). -/
def listItemSkip (item : String) : Bool :=
  reTestHead (reCat [reAlts [.liti "Hair", .liti "Beauty", .liti "Nail", .liti "Day",
      .liti "Lash", .liti "Skin", .liti "Massage"], ws1,
    reAlts [opts "Salon" "s", opts "Studio" "s", opts "Clinic" "s",
      opts "Center" "s", opts "Spa" "s"],
    ws0, .lit "(", dig1, .lit ")", .lit ":"]) item ||
  reTestHead (.liti "This gives me a total") item ||
  reTestHead (.liti "After removing duplicates") item ||
  reTest (.liti "is listed multiple times") item ||
  reTestHead (reCat [reAlts [.liti "Title", .liti "Summary", .liti "Main Body",
    .liti "Conclusion"], ws0, .lit "("]) item ||
  reTestHead (.liti "They want") item ||
  reTestHead (reCat [.liti "That's ", dig1, .liti " businesses"]) item ||
  reTestHead (.liti "So I have") item ||
  reTestHead (reCat [dig1, .lit "/", dig1, ws1, word1, ws1,
    reAlts [.liti "Street", .liti "St", .liti "Road", .liti "Rd"]]) item ||
  jsIncludes item "establishments if they exist" ||
  jsIncludes item "businesses that are confirmed"

/-- The out-of-area rejection regex applied to string items before
cleaning:
`/\((?:in\s+(?:Glebe|Petersham|Erskineville|Eveleigh|Marrickville|Camperdown|Stanmore|Enmore|Redfern),?\s*)?not\s+(?:in\s+)?Newtown\)/i`. -/
def reOutOfArea : RE :=
  reCat [.lit "(",
    .opt (reCat [.liti "in", ws1,
      reAlts [.liti "Glebe", .liti "Petersham", .liti "Erskineville", .liti "Eveleigh",
        .liti "Marrickville", .liti "Camperdown", .liti "Stanmore", .liti "Enmore",
        .liti "Redfern"],
      .opt (.lit ","), ws0]),
    .liti "not", ws1, .opt (reCat [.liti "in", ws1]), .liti "Newtown", .lit ")"]

/-- One step of the per-item loop of `validateSalonList`, producing the
names and issues the item contributes.  `none` models the `TypeError` the
source would raise on an object whose truthy `name` is not a string
(`cleanSalonName` is called on it directly). -/
def validateItem (item : Json) : Option (List String × List String) :=
  match item with
  | .obj _ =>
    match jGet item "name" with
    | some nv =>
      if jTruthy nv then
        match nv with
        | .str nameStr =>
          let cleanedName := cleanSalonName nameStr
          if isValidSalonName cleanedName then some ([cleanedName], [])
          else some ([], ["Invalid salon name: " ++ nameStr])
        | _ => none
      else some ([], ["Rejected non-string item: " ++ jStringify item])
    | none => some ([], ["Rejected non-string item: " ++ jStringify item])
  | .str s =>
    if listItemSkip s then some ([], ["Skipped meta text: " ++ s])
    else if reTest reOutOfArea s then some ([], ["Rejected out-of-area salon: " ++ s])
    else
      let cleanedName := cleanSalonName s
      if isValidSalonName cleanedName then some ([cleanedName], [])
      else if jsIncludes s "(" && jsIncludes s ")" then
        some ([], ["Cleaned annotated item: " ++ s ++ " -> " ++
          (if cleanedName = "" then "invalid" else cleanedName)])
      else some ([], ["Rejected item: " ++ s])
  | _ => some ([], ["Rejected non-string item: " ++ jStringify item])

/-- Run the per-item loop over the array. -/
def validateItems : List Json → Option (List String × List String)
  | [] => some ([], [])
  | item :: rest =>
    match validateItem item, validateItems rest with
    | some (ns, is), some (ns2, is2) => some (ns ++ ns2, is ++ is2)
    | _, _ => none

/-- First-occurrence deduplication, as `Array.from(new Set(cleaned))`
behaves (a JS `Set` preserves insertion order). -/
def dedupAux (seen : List String) : List String → List String
  | [] => []
  | s :: ss =>
    if seen.contains s then dedupAux seen ss
    else s :: dedupAux (s :: seen) ss

/-- `Array.from(new Set(l))`. -/
def dedupKeepFirst (l : List String) : List String := dedupAux [] l

/-- The final steps of `validateSalonList` shared by all paths that reach
them: deduplication, the duplicate/emptiness issues, and the result. -/
def finishValidate (cleaned : List String) (issues : List String) : ValidationResult :=
  let uniqueCleaned := dedupKeepFirst cleaned
  let issues :=
    if uniqueCleaned.length < cleaned.length then
      issues ++ ["Removed " ++ toString (cleaned.length - uniqueCleaned.length) ++ " duplicates"]
    else issues
  let isValid := decide (0 < uniqueCleaned.length)
  let issues :=
    if !isValid then issues ++ ["No valid salon names found after cleaning"]
    else if uniqueCleaned.length = 1 then
      issues ++ ["Warning: Only 1 salon found - may need to retry with different model"]
    else issues
  { isValid := isValid, cleaned := uniqueCleaned, issues := issues }

/-- `validateSalonList` of `salonDataValidator.ts` on an arbitrary JSON
value (`none` models the uncaught `TypeError` of a truthy non-string
`name` field, see `validateItem`). -/
def validateSalonList (data : Json) : Option ValidationResult :=
  match data with
  | .arr items =>
    match validateItems items with
    | some (cleaned, issues) => some (finishValidate cleaned issues)
    | none => none
  | .str s =>
    let lineNames := (jsSplitNl s).filterMap (fun line =>
      let t := jsTrim line
      if isValidSalonName t then some t else none)
    some (finishValidate lineNames ["Data is not an array"])
  | .obj _ =>
    match jGet data "salons" with
    | some sv =>
      if jTruthy sv then
        match sv with
        | .arr items =>
          match validateItems items with
          | some (cleaned, issues) =>
            some (finishValidate cleaned ("Data is not an array" :: issues))
          | none => none
        | _ => some { isValid := false, cleaned := [], issues := ["Invalid data structure"] }
      else some { isValid := false, cleaned := [], issues := ["Invalid data structure"] }
    | none => some { isValid := false, cleaned := [], issues := ["Invalid data structure"] }
  | .null => some (finishValidate [] ["Data is not an array"])
  | _ => some (finishValidate [] ["Data is not an array"])

/-! ## `rateLimiter.ts`: the `RateLimiter` state machine

`Date.now()` is modelled by an explicit `now : Int` (milliseconds)
argument to each method; each method returns the updated state. -/

structure LimState where
  requestTimes : List Int := []
  maxRequests : Nat := 50
  windowMs : Int := 60000
  backoffUntil : Int := 0
  consecutiveErrors : Nat := 0
deriving Repr, DecidableEq

/-- The singleton `perplexityRateLimiter = new RateLimiter(50, 60000)` in
its initial state. -/
def limInit : LimState := {}

/-- `RateLimiter.recordRequest`: push the current time and reset the
consecutive-error counter (nothing else changes). -/
def recordRequest (st : LimState) (now : Int) : LimState :=
  { st with requestTimes := st.requestTimes ++ [now], consecutiveErrors := 0 }

/-- `RateLimiter.handle429Error`: bump the error counter and back off for
`min(2^errors, 300)` seconds from now. -/
def handle429Error (st : LimState) (now : Int) : LimState :=
  let errors := st.consecutiveErrors + 1
  let backoffSeconds : Nat := min (2 ^ errors) 300
  { st with
    consecutiveErrors := errors,
    backoffUntil := now + (backoffSeconds * 1000 : Nat) }

/-- `RateLimiter.handleServerError`: bump the error counter and back off
with the per-status curve (auth: `min(2^(e+1)*2, 600)`s; server:
`min(2^(e+1)*3, 600)`s; other: `min(2^e, 120)`s). -/
def handleServerError (st : LimState) (now : Int) (statusCode : Nat) : LimState :=
  let errors := st.consecutiveErrors + 1
  let backoffSeconds : Nat :=
    if statusCode = 401 then min (2 ^ (errors + 1) * 2) 600
    else if statusCode = 500 then min (2 ^ (errors + 1) * 3) 600
    else min (2 ^ errors) 120
  { st with
    consecutiveErrors := errors,
    backoffUntil := now + (backoffSeconds * 1000 : Nat) }

/-- `RateLimiter.getTimeUntilNextSlot`: remaining backoff, else the wait
until the sliding window frees a slot (the method also prunes expired
request times; the pruned state is returned alongside). -/
def getTimeUntilNextSlot (st : LimState) (now : Int) : Int × LimState :=
  if now < st.backoffUntil then (st.backoffUntil - now, st)
  else
    let times := st.requestTimes.filter (fun t => now - t < st.windowMs)
    let st := { st with requestTimes := times }
    if times.length < st.maxRequests then (0, st)
    else
      let oldest := times.foldr min (times.headD 0)
      (max 0 (st.windowMs - (now - oldest)), st)

/-! ## `perplexityClient.ts`: backoff arithmetic and the retry loop -/

/-- `isRetryableError`: retry on 401, 429, 500, 502, 503, 504 and on
absent status (network errors). -/
def isRetryableError (status : Option Nat) : Bool :=
  status = some 401 || status = some 429 || status = some 500 ||
  status = some 502 || status = some 503 || status = some 504 || status = none

/-- `calculateBackoff`: `min(baseDelay * 2^attempt + jitter, maxDelay)`,
with `maxDelay` 5 minutes for 429, 2 minutes for 502/503/504, and the
10-minute default otherwise.  The `Math.random() * 1000` jitter is an
explicit argument in `[0, 1000)`. -/
def calculateBackoff (attempt : Nat) (baseDelay : Rat) (jitter : Rat) (status : Option Nat) : Rat :=
  let maxDelay : Rat :=
    if status = some 429 then 300000
    else if status = some 503 || status = some 502 || status = some 504 then 120000
    else 600000
  let exponential := baseDelay * 2 ^ attempt
  min (exponential + jitter) maxDelay

/-- `MAX_RETRIES` of `perplexityClient.ts`. -/
def MAX_RETRIES : Nat := 5

/-- What one `axios.post` attempt yields, seen from `makeRequest`'s
try/catch: a usable completion, a 200-shaped response without content
(the thrown `Invalid response format` error, which is not an Axios error
and is rethrown), or an Axios error carrying an optional HTTP status. -/
inductive UpstreamOutcome where
  | success (content : String) : UpstreamOutcome
  | invalidFormat : UpstreamOutcome
  | httpError (status : Option Nat) : UpstreamOutcome
deriving Repr, DecidableEq

/-- What one `makeRequest` invocation does with one attempt: return the
content, throw `RetryableError(attempt, maxAttempts, waitMs)`, or throw a
terminal `Error`. -/
inductive MakeReqResult where
  | ok (content : String) : MakeReqResult
  | retry (attempt maxAttempts : Nat) (waitMs : Rat) : MakeReqResult
  | fatal : MakeReqResult
deriving Repr, DecidableEq

/-- One pass of `makeRequest`'s `while (true)` body at local counter value
`attempt`.  Every branch of the catch block throws (`RetryableError` on a
retryable classification, `Error` otherwise) and the try block returns on
success, so the `while (true)` loop never runs a second iteration within
one invocation; the loop that matters is the caller's
(`runGoverned` below). -/
def makeRequestStep (st : LimState) (now : Int) (jitter : Rat) (attempt : Nat)
    (o : UpstreamOutcome) : MakeReqResult × LimState :=
  match o with
  | .success c => (.ok c, recordRequest st now)
  | .invalidFormat => (.fatal, st)
  | .httpError status =>
    if status = some 429 then
      let st := handle429Error st now
      let attempt := attempt + 1
      let (waitTime, st) := getTimeUntilNextSlot st now
      (.retry attempt MAX_RETRIES (waitTime : Rat), st)
    else if status = some 401 then
      if attempt < MAX_RETRIES then
        (.retry (attempt + 1) MAX_RETRIES (calculateBackoff (attempt + 1) 2000 jitter status), st)
      else (.fatal, st)
    else if status = some 500 then
      if attempt < MAX_RETRIES then
        (.retry (attempt + 1) MAX_RETRIES (calculateBackoff (attempt + 1) 3000 jitter status), st)
      else (.fatal, st)
    else if isRetryableError status && attempt < MAX_RETRIES then
      (.retry (attempt + 1) MAX_RETRIES (calculateBackoff (attempt + 1) 1000 jitter status), st)
    else (.fatal, st)

/-- Outcome of the caller-level loop (`listSalons` / `getSalonDetails`
catch `RetryableError`, sleep, and call `makeRequest` again). -/
inductive GovernedResult where
  | success (content : String) : GovernedResult
  | terminalFailure : GovernedResult
  | stillRetrying : GovernedResult
deriving Repr, DecidableEq

/-- Run the governed call against a script of upstream outcomes: each
element is what the next actual HTTP attempt yields.  Each iteration
re-enters `makeRequest`, whose local `attempt` counter starts at 0 again
(`let attempt = 0`).  Returns the outcome, the number of upstream
attempts consumed, and the limiter state; an exhausted script with the
caller still looping reports `stillRetrying`. -/
def runGoverned (st : LimState) (now : Int) (jitter : Rat) :
    List UpstreamOutcome → GovernedResult × Nat × LimState
  | [] => (.stillRetrying, 0, st)
  | o :: rest =>
    match makeRequestStep st now jitter 0 o with
    | (.ok c, st') => (.success c, 1, st')
    | (.fatal, st') => (.terminalFailure, 1, st')
    | (.retry _ _ _, st') =>
      let (r, n, st'') := runGoverned st' now jitter rest
      (r, n + 1, st'')

/-! ## `perplexityClient.ts`: `parseJsonResponse` -/

/-- Which extraction strategy produced the result (the provenance of the
cascade). -/
inductive ParseStrategy where
  /-- Strategy 1: direct parse of the trimmed content. -/
  | direct : ParseStrategy
  /-- Strategy 2: parse of the content after the last `</think>`. -/
  | afterThink : ParseStrategy
  /-- Strategy 3: parse of the first fenced code block. -/
  | fenced : ParseStrategy
  /-- Strategy 4: brace/bracket structure scan (object or array paths and
  their fallbacks). -/
  | structScan : ParseStrategy
  /-- Strategy 5: line-by-line salon-name extraction. -/
  | lineScan : ParseStrategy
  /-- Strategy 6: extraction of the shape opposite to the expected one. -/
  | alternate : ParseStrategy
deriving Repr, DecidableEq

/-- Strategy 3's capture: the regex
`/```(?:json)?\s*([\s\S]*?)```/` — first fence, optional `json` tag,
greedy whitespace, lazy body up to the next fence. -/
def fencedCapture (content : String) : Option String :=
  match jsIndexOf content "```" with
  | none => none
  | some i =>
    let after := (chars content).drop (i + 3)
    let after := if listStarts (chars "json") after then after.drop 4 else after
    let afterWs := after.dropWhile jsSpace
    match subIdxAux (chars "```") afterWs 0 with
    | none => none
    | some j => some (ofChars (afterWs.take j))

/-- All leftmost non-overlapping matches of `r` (the `matchAll` of a
global regex), fuel-bounded like `reKillFuel`. -/
def reFindAllFuel (r : RE) : Nat → List Char → List (List Char)
  | 0, _ => []
  | _, [] => []
  | fuel + 1, c :: cs =>
    match reRun r (c :: cs) some with
    | some rest =>
      if rest.length ≤ cs.length then
        ((c :: cs).take ((c :: cs).length - rest.length)) :: reFindAllFuel r fuel rest
      else reFindAllFuel r fuel cs
    | none => reFindAllFuel r fuel cs

/-- JS `content.matchAll(r)` match texts. -/
def reFindAll (r : RE) (s : String) : List (List Char) :=
  reFindAllFuel r ((chars s).length + 1) (chars s)

/-- The `objectRegex` `/\{[^{}]*"name"[^{}]*\}/g` of strategy 4. -/
def reObjName : RE :=
  reCat [.cls (· = lbrace), .starG (fun c => c ≠ lbrace && c ≠ rbrace),
    .lit "\"name\"", .starG (fun c => c ≠ lbrace && c ≠ rbrace), .cls (· = rbrace)]

/-- The brace-balancing loop of strategy 4: starting at `startIdx`, the
index of the first position where the running `{`/`}` count returns to
zero (the source leaves `endIdx = startIdx` when the count never
closes). -/
def braceBalanceEnd (cs : List Char) (startIdx : Nat) : Nat :=
  let rec go : List Char → Nat → Int → Nat
    | [], _, _ => startIdx
    | c :: rest, i, count =>
      let count := if c = lbrace then count + 1 else count
      if c = rbrace then
        if count - 1 = 0 then i else go rest (i + 1) (count - 1)
      else go rest (i + 1) count
  go (cs.drop startIdx) startIdx 0

/-- One candidate of strategy 4's object path: locate the matched text
(`content.indexOf(jsonStr)`), balance braces from there, parse the
balanced slice, and keep it when its `name` field is truthy. -/
def objCandidate (content : String) (jsonStr : List Char) : Option (Nat × Json) :=
  match jsIndexOf content (ofChars jsonStr) with
  | none => none
  | some startIdx =>
    let endIdx := braceBalanceEnd (chars content) startIdx
    let completeJson := jsSubstring content startIdx (endIdx + 1)
    match jsonParse completeJson with
    | none => none
    | some parsed =>
      match jGet parsed "name" with
      | some nv => if jTruthy nv then some (completeJson.length, parsed) else none
      | none => none

/-- Strategy 4's object path: best (longest balanced text) candidate among
the `objectRegex` matches, strictly improving as the source's
`completeJson.length > bestMatchLength` requires. -/
def bestObjMatch (content : String) : Option Json :=
  (reFindAll reObjName content).foldl
    (fun best m =>
      match objCandidate content m with
      | none => best
      | some (len, parsed) =>
        match best with
        | none => some (len, parsed)
        | some (bestLen, _) => if len > bestLen then some (len, parsed) else best)
    (none : Option (Nat × Json))
    |>.map Prod.snd

/-- `String(x)` as used by the reference-number test of strategy 4's array
fallback (numbers in scaled-decimal form; only the all-digits test is
observed). -/
def jToString : Json → String
  | .null => "null"
  | .bool true => "true"
  | .bool false => "false"
  | .num m e => toString m ++ (if e = 0 then "" else "e" ++ toString e)
  | .str s => s
  | .arr _ => ""
  | .obj _ => ""

/-- The `jsonArrayRegex` `/\[\s*"[^"]+"/` of strategy 4's array path. -/
def reArrQuoted : RE :=
  reCat [.lit "[", ws0, .lit "\"", .plusG (· ≠ '"'), .lit "\""]

/-- Index of the leftmost match of `r` in `cs`. -/
def reFindIdxAux (r : RE) : List Char → Nat → Option Nat
  | [], i => if reHead r [] then some i else none
  | c :: cs, i => if reHead r (c :: cs) then some i else reFindIdxAux r cs (i + 1)

/-- Index of the leftmost match of `r` in `s`. -/
def reFindIdx (r : RE) (s : String) : Option Nat := reFindIdxAux r (chars s) 0

/-- Strategy 4's array path, first part: a JSON array opening with a
quoted string, cut at the next `]`, parsed, and accepted only when every
element is a string of length over 1 that is not purely numeric. -/
def arrQuotedScan (content : String) : Option Json :=
  match reFindIdx reArrQuoted content with
  | none => none
  | some startIndex =>
    match jsIndexOfFrom content "]" startIndex with
    | none => none
    | some endIndex =>
      let extracted := jsSubstring content startIndex (endIndex + 1)
      match jsonParse extracted with
      | none => none
      | some parsed =>
        match parsed with
        | .arr items =>
          if !items.isEmpty &&
             items.all (fun item =>
               match item with
               | .str s => decide (s.length > 1) && !allDigits s
               | _ => false) then
            some parsed
          else none
        | _ => none

/-- Strategy 4's array fallback: the last `[` … last `]` slice, parsed,
rejecting a one-element array whose element prints as digits (a footnote
reference). -/
def arrTailScan (content : String) : Option Json :=
  match jsLastIndexOfC content '[', jsLastIndexOfC content ']' with
  | some lastArrayStart, some lastArrayEnd =>
    if lastArrayEnd > lastArrayStart then
      let extracted := jsSubstring content lastArrayStart (lastArrayEnd + 1)
      match jsonParse extracted with
      | none => none
      | some parsed =>
        match parsed with
        | .arr [item] => if allDigits (jToString item) then none else some parsed
        | _ => some parsed
    else none
  | _, _ => none

/-- Strategy 4's object fallback: the first `{` … last `}` slice,
parsed. -/
def objTailScan (content : String) : Option Json :=
  match jsIndexOfC content lbrace, jsLastIndexOfC content rbrace with
  | some jsonStart, some jsonEnd =>
    if jsonEnd > jsonStart then
      jsonParse (jsSubstring content jsonStart (jsonEnd + 1))
    else none
  | _, _ => none

/-- Strategy 6: the slice of the shape opposite to the expected one. -/
def alternateScan (content : String) (isArrayExpected : Bool) : Option Json :=
  let so : Option Nat :=
    if isArrayExpected then jsIndexOfC content lbrace else jsIndexOfC content '['
  let eo : Option Nat :=
    if isArrayExpected then jsLastIndexOfC content rbrace else jsLastIndexOfC content ']'
  match so, eo with
  | some altStart, some altEnd =>
    if altEnd > altStart then
      jsonParse (jsSubstring content altStart (altEnd + 1))
    else none
  | _, _ => none

/-- Lazy capture runner shared by the line patterns of strategy 5: consume
characters of class `cl` one at a time (shortest first, the `+?`
semantics), accepting as soon as at least one character is consumed and
the rest is empty or satisfies `tailOk`. -/
def lazyCapAux (cl : Char → Bool) (tailOk : List Char → Bool) :
    List Char → List Char → Option (List Char)
  | acc, [] => if !acc.isEmpty then some acc.reverse else none
  | acc, c :: cs =>
    if !acc.isEmpty && tailOk (c :: cs) then some acc.reverse
    else if cl c then lazyCapAux cl tailOk (c :: acc) cs
    else none

/-- The optional tail `(?:\s+(?:in|at|on)\s+.+)?$` of line patterns 1 and
2 (matched in full against the rest of the line). -/
def tailInAtOn (rest : List Char) : Bool :=
  reWhole (reCat [ws1, reAlts [.lit "in", .lit "at", .lit "on"], ws1, .plusG jsDot]) rest

/-- Line pattern 1, `/^\d+\.\s+(.+?)(?:\s+(?:in|at|on)\s+.+)?$/`: capture
group 1. -/
def linePat1 (line : String) : Option String :=
  (reRun (reCat [dig1, .lit ".", ws1]) (chars line)
    (fun rest => lazyCapAux jsDot tailInAtOn [] rest)).map ofChars

/-- Line pattern 2, `/^[-*•]\s+(.+?)(?:\s+(?:in|at|on)\s+.+)?$/`. -/
def linePat2 (line : String) : Option String :=
  (reRun (reCat [.cls (fun c => c = '-' || c = '*' || c = '•'), ws1]) (chars line)
    (fun rest => lazyCapAux jsDot tailInAtOn [] rest)).map ofChars

/-- Line pattern 3, `/"([^"]+)"/`: the first non-empty quoted segment. -/
def linePat3Aux : List Char → Option (List Char)
  | [] => none
  | c :: rest =>
    if c = '"' then
      let body := rest.takeWhile (· ≠ '"')
      let after := rest.dropWhile (· ≠ '"')
      if !body.isEmpty && !after.isEmpty then some body else linePat3Aux rest
    else linePat3Aux rest

/-- Line pattern 3 on a string. -/
def linePat3 (line : String) : Option String := (linePat3Aux (chars line)).map ofChars

/-- The separator alternation of line pattern 4,
`(?:\s*[-–]\s*|\s+in\s+|\s+at\s+|,|$)` (the `$` alternative is the
`rest.isEmpty` case of `lazyCapAux`). -/
def p4Sep : RE :=
  reAlts [reCat [ws0, .cls (fun c => c = '-' || c = '–'), ws0],
    reCat [ws1, .lit "in", ws1],
    reCat [ws1, .lit "at", ws1],
    .lit ","]

/-- Line pattern 4,
`/^([A-Z][^,\[\]\{\}]+?)(?:\s*[-–]\s*|\s+in\s+|\s+at\s+|,|$)/`: a
capitalized run up to a separator. -/
def linePat4 (line : String) : Option String :=
  match chars line with
  | [] => none
  | c :: rest =>
    if 'A' ≤ c && c ≤ 'Z' then
      (lazyCapAux (fun ch => ch ≠ ',' && ch ≠ '[' && ch ≠ ']' && ch ≠ lbrace && ch ≠ rbrace)
        (fun r => reHead p4Sep r) [c] rest).map ofChars
    else none

/-- The per-candidate validation of strategy 5 (`salonName` non-empty,
length in (2, 100), not digits, no brackets/braces, no "from", not
starting with "the user" or "okay", not already seen). -/
def lineNameOk (seen : List String) (salonName : String) : Bool :=
  salonName ≠ "" &&
  decide (salonName.length > 2) &&
  decide (salonName.length < 100) &&
  !allDigits salonName &&
  !jsIncludes salonName "[" &&
  !jsIncludes salonName "]" &&
  !jsIncludes salonName (ofChars [lbrace]) &&
  !jsIncludes salonName (ofChars [rbrace]) &&
  !jsIncludes (lowerS salonName) "from" &&
  !jsStarts (lowerS salonName) "the user" &&
  !jsStarts (lowerS salonName) "okay" &&
  !seen.contains salonName

/-- One line of strategy 5: try the four patterns in order, adding the
first capture that validates (`break` after a successful add; a failed
validation moves on to the next pattern). -/
def lineExtractOne (seen : List String) (line : String) : Option String :=
  let t := jsTrim line
  if t = "" || jsStarts t "<" || jsStarts t "From [" then none
  else
    [linePat1 t, linePat2 t, linePat3 t, linePat4 t].foldl
      (fun found cap =>
        match found with
        | some _ => found
        | none =>
          match cap with
          | some m =>
            let salonName := jsTrim m
            if lineNameOk seen salonName then some salonName else none
          | none => none)
      none

/-- Strategy 5's loop over all lines, threading the dedup set. -/
def lineExtract (seen : List String) : List String → List String
  | [] => []
  | line :: rest =>
    match lineExtractOne seen line with
    | some name => name :: lineExtract (seen ++ [name]) rest
    | none => lineExtract seen rest

/-- Strategy 1 of `parseJsonResponse`: direct parse of the trimmed
content when it opens with `[` or `{`. -/
def strat1 (content : String) : Option Json :=
  let trimmedContent := jsTrim content
  if jsStarts trimmedContent "[" || jsStarts trimmedContent (ofChars [lbrace]) then
    jsonParse trimmedContent
  else none

/-- Strategy 2 of `parseJsonResponse`: when thinking tags are present,
parse what follows the last `</think>` (skipped when nothing or only
whitespace follows). -/
def strat2 (content : String) : Option Json :=
  if jsIncludes content "<think>" || jsIncludes content "</think>" then
    match jsLastIndexOf content "</think>" with
    | some thinkEndIndex =>
      let afterThinking := jsTrim (jsDrop content (thinkEndIndex + 8))
      if afterThinking ≠ "" then jsonParse afterThinking else none
    | none => none
  else none

/-- Strategy 3 of `parseJsonResponse`: parse the trimmed body of the
first fenced code block (the source guards on `match?.[1]`, so an empty
capture abstains). -/
def strat3 (content : String) : Option Json :=
  match fencedCapture content with
  | some body => if body ≠ "" then jsonParse (jsTrim body) else none
  | none => none

/-- Strategy 4 of `parseJsonResponse`: the structure scan — object path
(named-object scan, then first-`{`-to-last-`}` fallback) when an object
is expected, array path (quoted-array scan, then last-bracket fallback)
when an array is expected. -/
def strat4 (content : String) (isArrayExpected : Bool) : Option Json :=
  if !isArrayExpected then
    match bestObjMatch content with
    | some v => some v
    | none => objTailScan content
  else
    match arrQuotedScan content with
    | some v => some v
    | none => arrTailScan content

/-- Strategy 5 of `parseJsonResponse`: line-by-line salon extraction
(array expectation only). -/
def strat5 (content : String) (isArrayExpected : Bool) : Option Json :=
  if isArrayExpected then
    let salons := lineExtract [] (jsSplitNl content)
    if !salons.isEmpty then some (.arr (salons.map Json.str)) else none
  else none

/-- `parseJsonResponse` of `perplexityClient.ts`: the ordered extraction
cascade.  `none` models the final `throw` after all strategies fail; a
result carries the strategy that produced it (the provenance). -/
def parseJsonResponse (content : String) (isArrayExpected : Bool) :
    Option (ParseStrategy × Json) :=
  match strat1 content with
  | some v => some (.direct, v)
  | none =>
  match strat2 content with
  | some v => some (.afterThink, v)
  | none =>
  match strat3 content with
  | some v => some (.fenced, v)
  | none =>
  match strat4 content isArrayExpected with
  | some v => some (.structScan, v)
  | none =>
  match strat5 content isArrayExpected with
  | some v => some (.lineScan, v)
  | none =>
  match alternateScan content isArrayExpected with
  | some v => some (.alternate, v)
  | none => none

/-! ## `claudeProcessor.ts`: `formatBusinessHours` and the enrichment merge

`Salon` mirrors `types/index.ts` (the fields the merge reads or writes,
plus `description` as a representative untouched optional field);
optional fields are `Option`s, JS numbers are exact rationals. -/

structure Coordinates where
  latitude : Rat
  longitude : Rat
deriving Repr, DecidableEq

structure Rating where
  stars : Rat
  numberOfReviewers : Rat
deriving Repr, DecidableEq

structure ServiceEntry where
  item : String
  price : Rat
deriving Repr, DecidableEq

/-- One day's `{ open, close }` pair (fields renamed `openT`/`closeT`
because `open` is a Lean keyword). -/
structure DayHours where
  openT : String
  closeT : String
deriving Repr, DecidableEq

structure BusinessHours where
  monday : DayHours
  tuesday : DayHours
  wednesday : DayHours
  thursday : DayHours
  friday : DayHours
  saturday : DayHours
  sunday : DayHours
deriving Repr, DecidableEq

structure Salon where
  name : String
  address : Option String := none
  coordinates : Option Coordinates := none
  description : Option String := none
  contactNumber : Option String := none
  website : Option String := none
  rating : Option Rating := none
  services : Option (List ServiceEntry) := none
  priceRange : Option String := none
  thumbnails : Option (List String) := none
  businessHours : Option BusinessHours := none
  serviceCategories : Option (List String) := none
deriving Repr, DecidableEq

/-- One endpoint of a Google opening-hours period (`{ day, time }`; `day`
is `some` exactly when `typeof period.open.day === 'number'`). -/
structure PeriodPoint where
  day : Option Int := none
  time : Option String := none
deriving Repr, DecidableEq

/-- One Google opening-hours period (`openP`/`closeP` for the source's
`open`/`close`). -/
structure Period where
  openP : Option PeriodPoint := none
  closeP : Option PeriodPoint := none
deriving Repr, DecidableEq

structure OpeningHours where
  periods : Option (List Period) := none
deriving Repr, DecidableEq

/-- The Google Places result consumed by the merge (`geometry.location`
flattened into `lat`/`lng`; absent optional chains are `none`). -/
structure PlaceData where
  name : Option String := none
  formatted_address : Option String := none
  lat : Option Rat := none
  lng : Option Rat := none
  rating : Option Rat := none
  user_ratings_total : Option Rat := none
  photos : Option (List (Option String)) := none
  formatted_phone_number : Option String := none
  website : Option String := none
  opening_hours : Option OpeningHours := none
deriving Repr, DecidableEq

/-- JS truthiness of an optional string (`undefined` and `''` falsy). -/
def truthyS : Option String → Bool
  | none => false
  | some s => s ≠ ""

/-- JS truthiness of an optional number (`undefined`, `0` falsy). -/
def truthyQ : Option Rat → Bool
  | none => false
  | some q => q ≠ 0

/-- The time reformatting `time.replace(/(\d{2})(\d{2})/, '$1:$2')`: a
colon inserted in the first run of four digits (non-global replace). -/
def timeColon : List Char → List Char
  | a :: b :: c :: d :: rest =>
    if a.isDigit && b.isDigit && c.isDigit && d.isDigit then
      a :: b :: ':' :: c :: d :: rest
    else a :: timeColon (b :: c :: d :: rest)
  | cs => cs

/-- `"HHMM"` to `"HH:MM"` as a string. -/
def timeColonS (s : String) : String := ofChars (timeColon (chars s))

/-- The all-closed week `formatBusinessHours` starts from. -/
def defaultHours : BusinessHours :=
  let closedDay : DayHours := { openT := "closed", closeT := "closed" }
  { monday := closedDay, tuesday := closedDay, wednesday := closedDay,
    thursday := closedDay, friday := closedDay, saturday := closedDay,
    sunday := closedDay }

/-- Write one day slot (`daysOfWeek` indexes Sunday = 0 … Saturday = 6; an
out-of-range index writes a key outside the seven-day record and leaves
the week unchanged). -/
def setDay (bh : BusinessHours) (day : Int) (v : DayHours) : BusinessHours :=
  if day = 0 then { bh with sunday := v }
  else if day = 1 then { bh with monday := v }
  else if day = 2 then { bh with tuesday := v }
  else if day = 3 then { bh with wednesday := v }
  else if day = 4 then { bh with thursday := v }
  else if day = 5 then { bh with friday := v }
  else if day = 6 then { bh with saturday := v }
  else bh

/-- `formatBusinessHours` of `claudeProcessor.ts`: fold the periods over
the all-closed default, formatting `open.time`/`close?.time` (falsy times
become `"closed"`). -/
def formatBusinessHours (openingHours : Option OpeningHours) : BusinessHours :=
  match openingHours with
  | none => defaultHours
  | some oh =>
    match oh.periods with
    | none => defaultHours
    | some periods =>
      periods.foldl
        (fun acc period =>
          match period.openP with
          | none => acc
          | some op =>
            match op.day with
            | none => acc
            | some d =>
              let openTime :=
                if truthyS op.time then timeColonS (op.time.getD "") else "closed"
              let closeTime :=
                match period.closeP with
                | some cp =>
                  if truthyS cp.time then timeColonS (cp.time.getD "") else "closed"
                | none => "closed"
              setDay acc d { openT := openTime, closeT := closeTime })
        defaultHours

/-- The Google Places photo URL built for one photo reference
(`URLSearchParams` over these four fixed ASCII-safe parameters reduces to
plain concatenation). -/
def googlePhotoUrl (w h : Nat) (key ref : String) : String :=
  "https://maps.googleapis.com/maps/api/place/photo?maxwidth=" ++ toString w ++
    "&maxheight=" ++ toString h ++ "&photoreference=" ++ ref ++ "&key=" ++ key

/-- The thumbnail list derived from the enrichment source:
`photos.slice(0, 3).map(...url or null...).filter(≠ null)` with the
`config.THUMBNAIL_WIDTH || 400` / `|| 300` defaults. -/
def googlePhotoUrls (photos : List (Option String)) (thumbW thumbH : Nat) (key : String) :
    List String :=
  let maxWidth := if thumbW = 0 then 400 else thumbW
  let maxHeight := if thumbH = 0 then 300 else thumbH
  (photos.take 3).filterMap (fun photoRef =>
    match photoRef with
    | some r => if r ≠ "" then some (googlePhotoUrl maxWidth maxHeight key r) else none
    | none => none)

/-- Whether the enrichment source offers photos
(`placeData.photos && placeData.photos.length > 0`). -/
def hasPhotos (pd : PlaceData) : Bool :=
  match pd.photos with
  | some l => !l.isEmpty
  | none => false

/-- The pure merge performed by `enrichWithGooglePlaces` once a Google
place was found (the `enrichedSalon` object literal, lines 421–498):
spread of the existing salon, then each field as written in the source.
`apiKey` is `config.GOOGLE_PLACES_API_KEY`, `thumbW`/`thumbH` the
configured thumbnail bounds. -/
def enrichMerge (salon : Salon) (placeData : PlaceData) (apiKey : String)
    (thumbW thumbH : Nat) : Salon :=
  { salon with
    name := match placeData.name with
      | some n => if n ≠ "" then n else salon.name
      | none => salon.name,
    address := if truthyS placeData.formatted_address then placeData.formatted_address
      else salon.address,
    coordinates :=
      if truthyQ placeData.lat && truthyQ placeData.lng then
        some { latitude := (placeData.lat).getD 0, longitude := (placeData.lng).getD 0 }
      else salon.coordinates,
    rating :=
      if truthyQ placeData.rating then
        some { stars := (placeData.rating).getD 0,
               numberOfReviewers :=
                 if truthyQ placeData.user_ratings_total then
                   (placeData.user_ratings_total).getD 0
                 else 0 }
      else salon.rating,
    services := some (salon.services.getD []),
    priceRange := some (salon.priceRange.getD ""),
    serviceCategories := some (salon.serviceCategories.getD []),
    thumbnails :=
      if hasPhotos placeData && apiKey ≠ "" then
        some (googlePhotoUrls ((placeData.photos).getD []) thumbW thumbH apiKey)
      else some (salon.thumbnails.getD []),
    contactNumber := if truthyS placeData.formatted_phone_number then
        placeData.formatted_phone_number
      else salon.contactNumber,
    website := if truthyS placeData.website then placeData.website else salon.website,
    businessHours :=
      match placeData.opening_hours with
      | some oh => some (formatBusinessHours (some oh))
      | none => salon.businessHours }

/-! ## `serverCache.ts`: keyed salon-details reads with lazy expiry -/

/-- `CACHE_EXPIRY_HOURS = 24 * 7` (one week). -/
def CACHE_EXPIRY_HOURS : Nat := 24 * 7

/-- `ServerCache.isExpired`: age strictly above the retention window. -/
def isExpired (now timestamp : Int) : Bool :=
  now - timestamp > (CACHE_EXPIRY_HOURS * 60 * 60 * 1000 : Nat)

/-- `sanitizeForFilename`: lower-case, trim, non-alphanumerics to `_`. -/
def sanitizeForFilename (s : String) : String :=
  ofChars ((chars (jsTrim (lowerS s))).map (fun c =>
    if ('a' ≤ c && c ≤ 'z') || c.isDigit then c else '_'))

/-- `getSalonDetailsCacheKey`: `placeId || sanitized name`, then the model
with non-alphanumerics (case-insensitively) replaced by `_`. -/
def getSalonDetailsCacheKey (placeId : Option String) (salonName model : String) : String :=
  let id := match placeId with
    | some p => if p ≠ "" then p else sanitizeForFilename salonName
    | none => sanitizeForFilename salonName
  let modelKey := ofChars ((chars model).map (fun c =>
    if ('a' ≤ lowerC c && lowerC c ≤ 'z') || c.isDigit then c else '_'))
  id ++ "_" ++ modelKey

/-- One stored salon-details cache file (`CachedSalonDetails`). -/
structure CachedSalonDetails where
  salon : Salon
  timestamp : Int
  model : String
  placeId : Option String := none
deriving Repr, DecidableEq

/-- The salon-details cache directory as a map from file key to entry
(`none` = no file). -/
def CacheStore := String → Option CachedSalonDetails

/-- `ServerCache.getSalonDetails`: read the keyed entry; an expired entry
is deleted and reported absent, a fresh one is returned unchanged, and
the store is untouched otherwise. -/
def getSalonDetails (store : CacheStore) (now : Int) (placeId : Option String)
    (salonName model : String) : Option Salon × CacheStore :=
  let key := getSalonDetailsCacheKey placeId salonName model
  match store key with
  | none => (none, store)
  | some cached =>
    if isExpired now cached.timestamp then
      (none, fun k => if k = key then none else store k)
    else (some cached.salon, store)

/-! ## Theorems for the claims -/

/-- C1: the claim states the merge keeps every present, non-empty field
of the existing record verbatim (photo references apart) and fills
rating, contact number, website, schedule and coordinates from the
enrichment source only when absent.  Evaluating the merge at a record
that already has a rating, a contact number, a website, coordinates and
business hours shows the code replacing every one of them with the
enrichment source's values whenever that source offers them —
contradicting the function's own doc comment ("Only fills in missing
data, preserving existing Perplexity data when available"). -/
theorem C1_merge_overwrites_present_fields :
    (enrichMerge
      { name := "Glow Girl",
        coordinates := some { latitude := 1, longitude := 2 },
        contactNumber := some "9555 0000",
        website := some "https://old.example",
        rating := some { stars := 3, numberOfReviewers := 10 },
        businessHours := some defaultHours }
      { lat := some 5, lng := some 6,
        rating := some 4, user_ratings_total := some 120,
        formatted_phone_number := some "9555 1111",
        website := some "https://new.example",
        opening_hours := some { periods := some [] } }
      "KEY" 400 300) =
    { name := "Glow Girl",
      coordinates := some { latitude := 5, longitude := 6 },
      contactNumber := some "9555 1111",
      website := some "https://new.example",
      rating := some { stars := 4, numberOfReviewers := 120 },
      businessHours := some defaultHours,
      services := some [], priceRange := some "", serviceCategories := some [],
      thumbnails := some [] } := by
  decide

/-- C2: whenever the enrichment source offers at least one photo entry
(and the Places key is configured, which the enclosing function's early
return guarantees), the merged record's photo references are exactly the
list derived from the enrichment source's photos, the existing references
being discarded wholesale; when the source offers none, the existing
references are kept. -/
theorem C2_photos_replaced_wholesale (salon : Salon) (pd : PlaceData)
    (apiKey : String) (w h : Nat) (hkey : apiKey ≠ "") :
    (hasPhotos pd = true →
      (enrichMerge salon pd apiKey w h).thumbnails =
        some (googlePhotoUrls ((pd.photos).getD []) w h apiKey)) ∧
    (hasPhotos pd = false →
      (enrichMerge salon pd apiKey w h).thumbnails =
        some (salon.thumbnails.getD [])) := by
  constructor
  · intro hp
    simp [enrichMerge, hp, hkey]
  · intro hp
    simp [enrichMerge, hp]

/-- C2 witness: a record with two existing references merged against a
source offering two photos ends up with exactly the two derived URLs. -/
theorem C2_witness :
    (enrichMerge
      { name := "Glow Girl", thumbnails := some ["https://a.example/1", "https://a.example/2"] }
      { photos := some [some "r1", some "r2"] }
      "K" 400 300).thumbnails =
    some (googlePhotoUrls [some "r1", some "r2"] 400 300 "K") :=
  (C2_photos_replaced_wholesale _ _ "K" 400 300 (by decide)).1 rfl

/-- C3: the claim caps one governed call at 5 upstream attempts with a
terminal failure on exhaustion.  The code intends this (`MAX_RETRIES = 5`
and the "Final after N attempts" branch) but every `RetryableError`
returns control to the caller's loop, which re-enters `makeRequest` with
its local `attempt` reset to 0, so `attempt < MAX_RETRIES` always holds:
six consecutive 401 responses consume six upstream attempts and the
caller is still retrying, with no terminal failure. -/
theorem C3_retry_ceiling_never_enforced :
    (runGoverned limInit 0 0 (List.replicate 6 (.httpError (some 401)))).1 =
      .stillRetrying ∧
    (runGoverned limInit 0 0 (List.replicate 6 (.httpError (some 401)))).2.1 = 6 ∧
    MAX_RETRIES = 5 := by
  refine ⟨rfl, rfl, rfl⟩

/-- Members of `dedupAux seen l` are never in `seen`. -/
theorem dedupAux_not_seen {x : String} :
    ∀ (l : List String) (seen : List String), x ∈ dedupAux seen l → seen.contains x = false
  | [], _, hx => by simp [dedupAux] at hx
  | s :: ss, seen, hx => by
    by_cases hs : seen.contains s
    · rw [dedupAux, if_pos hs] at hx
      exact dedupAux_not_seen ss seen hx
    · rw [dedupAux, if_neg hs] at hx
      rcases List.mem_cons.mp hx with h | h
      · subst h
        exact Bool.not_eq_true _ ▸ (Bool.eq_false_iff.mpr hs)
      · have h2 := dedupAux_not_seen ss (s :: seen) h
        simp only [List.contains_cons, Bool.or_eq_false_iff] at h2
        exact h2.2

/-- Output of `dedupAux` has no duplicates. -/
theorem dedupAux_nodup : ∀ (l : List String) (seen : List String), (dedupAux seen l).Nodup
  | [], _ => by simp [dedupAux]
  | s :: ss, seen => by
    by_cases hs : seen.contains s
    · rw [dedupAux, if_pos hs]
      exact dedupAux_nodup ss seen
    · rw [dedupAux, if_neg hs]
      refine List.nodup_cons.mpr ⟨?_, dedupAux_nodup ss (s :: seen)⟩
      intro hmem
      have h2 := dedupAux_not_seen _ _ hmem
      simp [List.contains_cons] at h2

/-- Output of the JS-`Set` deduplication has no duplicates. -/
theorem dedupKeepFirst_nodup (l : List String) : (dedupKeepFirst l).Nodup :=
  dedupAux_nodup l []

/-- Output of `finishValidate` has no duplicates. -/
theorem finishValidate_nodup (c i : List String) : (finishValidate c i).cleaned.Nodup := by
  show (dedupKeepFirst c).Nodup
  exact dedupKeepFirst_nodup c

/-- C4 (amended): the deduplication of `validateSalonList` is by exact
string equality with the first occurrence winning, so the validated
output never contains two identical names (it can, however, contain two
names differing only by case, and re-validating is not idempotent: see
the counterexample). -/
theorem C4_validated_list_nodup (data : Json) (res : ValidationResult)
    (h : validateSalonList data = some res) : res.cleaned.Nodup := by
  unfold validateSalonList at h
  repeat' split at h
  all_goals try cases h
  all_goals first
    | exact finishValidate_nodup _ _
    | exact List.nodup_nil

/-- C4 witness: the amended no-duplicates theorem applied to a concrete
list (note the repeated name collapsing to its first occurrence). -/
theorem C4_witness :
    validateSalonList (.arr [.str "Glow Girl", .str "Simply Stunning", .str "Glow Girl"]) =
      some { isValid := true, cleaned := ["Glow Girl", "Simply Stunning"],
             issues := ["Removed 1 duplicates"] } ∧
    (["Glow Girl", "Simply Stunning"] : List String).Nodup := by
  refine ⟨rfl, ?_⟩
  exact C4_validated_list_nodup
    (.arr [.str "Glow Girl", .str "Simply Stunning", .str "Glow Girl"]) _ rfl

/-- C4 counterexample: the claim's case-insensitive deduplication and
idempotence both fail on the code.  "Bella Hair" and "BELLA HAIR" differ
only by case yet both survive validation; and an annotated item whose
cleaning produces "is listed multiple times" survives the first
validation but is removed by a second one (the skip checks run on raw
items), so re-validating an already-validated list is not the
identity. -/
theorem C4_counterexample :
    (validateSalonList (.arr [.str "Bella Hair", .str "BELLA HAIR"])).map
        ValidationResult.cleaned = some ["Bella Hair", "BELLA HAIR"] ∧
    lowerS "Bella Hair" = lowerS "BELLA HAIR" ∧
    (validateSalonList (.arr [.str "is listed (duplicate) multiple times"])).map
        ValidationResult.cleaned = some ["is listed multiple times"] ∧
    (validateSalonList (.arr [.str "is listed multiple times"])).map
        ValidationResult.cleaned = some [] := by
  refine ⟨rfl, rfl, rfl, rfl⟩

/-- C5 (amended): the name-plausibility check rejects every candidate
whose trimmed length is under 2 characters (not 3, as claimed) or over
100 characters, and every purely numeric string. -/
theorem C5_length_and_numeric_rejected (s : String)
    (h : (jsTrim s).length < 2 ∨ (jsTrim s).length > 100 ∨ allDigits (jsTrim s) = true) :
    isValidSalonName s = false := by
  unfold isValidSalonName
  rcases h with h | h | h
  · simp [h]
  · simp [h]
  · simp [h]

/-- C5 witness: the one-character candidate "a" is rejected. -/
theorem C5_witness : isValidSalonName "a" = false :=
  C5_length_and_numeric_rejected "a" (Or.inl (by decide))

/-- C5 counterexample: the claim says every candidate under 3 trimmed
characters is rejected, but the code's lower bound is 2: the
two-character candidate "ab" passes every check. -/
theorem C5_counterexample :
    isValidSalonName "ab" = true ∧ (jsTrim "ab").length = 2 := by
  refine ⟨rfl, rfl⟩

/-- A limiter state that already has eight consecutive errors. -/
def limErr8 : LimState := { consecutiveErrors := 8 }

/-- C6 (amended): within consecutive error-handling calls of the same
classification (clock non-decreasing), `backoffUntil` is monotonically
non-decreasing; and a successful request resets the consecutive-error
counter to zero but leaves `backoffUntil` unchanged (it does not reset it
into the past — it is merely already past whenever the limiter allowed
the request to proceed). -/
theorem C6_backoff_same_class_monotone (st : LimState) (t1 t2 t3 : Int) (status : Nat)
    (h12 : t1 ≤ t2) :
    (handle429Error st t1).backoffUntil ≤
      (handle429Error (handle429Error st t1) t2).backoffUntil ∧
    (handleServerError st t1 status).backoffUntil ≤
      (handleServerError (handleServerError st t1 status) t2 status).backoffUntil ∧
    (recordRequest st t3).backoffUntil = st.backoffUntil ∧
    (recordRequest st t3).consecutiveErrors = 0 := by
  refine ⟨?_, ?_, rfl, rfl⟩
  · show t1 + ((min (2 ^ (st.consecutiveErrors + 1)) 300 * 1000 : Nat) : Int) ≤
      t2 + ((min (2 ^ (st.consecutiveErrors + 1 + 1)) 300 * 1000 : Nat) : Int)
    have hmin : min ((2 : Nat) ^ (st.consecutiveErrors + 1)) 300 ≤
        min ((2 : Nat) ^ (st.consecutiveErrors + 1 + 1)) 300 :=
      min_le_min (Nat.pow_le_pow_right (by norm_num) (by omega)) le_rfl
    exact Int.add_le_add h12 (by exact_mod_cast Nat.mul_le_mul_right 1000 hmin)
  · unfold handleServerError
    by_cases h401 : status = 401
    · simp only [if_pos h401]
      have hmin : min ((2 : Nat) ^ (st.consecutiveErrors + 1 + 1) * 2) 600 ≤
          min ((2 : Nat) ^ (st.consecutiveErrors + 1 + 1 + 1) * 2) 600 :=
        min_le_min
          (Nat.mul_le_mul_right 2 (Nat.pow_le_pow_right (by norm_num) (by omega))) le_rfl
      exact Int.add_le_add h12 (by exact_mod_cast Nat.mul_le_mul_right 1000 hmin)
    · simp only [if_neg h401]
      by_cases h500 : status = 500
      · simp only [if_pos h500]
        have hmin : min ((2 : Nat) ^ (st.consecutiveErrors + 1 + 1) * 3) 600 ≤
            min ((2 : Nat) ^ (st.consecutiveErrors + 1 + 1 + 1) * 3) 600 :=
          min_le_min
            (Nat.mul_le_mul_right 3 (Nat.pow_le_pow_right (by norm_num) (by omega))) le_rfl
        exact Int.add_le_add h12 (by exact_mod_cast Nat.mul_le_mul_right 1000 hmin)
      · simp only [if_neg h500]
        have hmin : min ((2 : Nat) ^ (st.consecutiveErrors + 1)) 120 ≤
            min ((2 : Nat) ^ (st.consecutiveErrors + 1 + 1)) 120 :=
          min_le_min (Nat.pow_le_pow_right (by norm_num) (by omega)) le_rfl
        exact Int.add_le_add h12 (by exact_mod_cast Nat.mul_le_mul_right 1000 hmin)

/-- C6 witness: the same-class monotonicity and the success behaviour at
a concrete state and clock. -/
theorem C6_witness :
    (handle429Error limInit 0).backoffUntil ≤
      (handle429Error (handle429Error limInit 0) 5).backoffUntil ∧
    (recordRequest limInit 7).backoffUntil = limInit.backoffUntil := by
  have h := C6_backoff_same_class_monotone limInit 0 5 7 503 (by decide)
  exact ⟨h.1, h.2.2.1⟩

/-- C6 counterexample: the claim's two halves both fail on the code.  A
success does not reset `backoffUntil` to the past: after a 429 at time 0
(backoff until 2000) a success at time 1 leaves `backoffUntil` at 2000,
in the future.  Nor is `backoffUntil` non-decreasing across classified
failures of different classes: from eight consecutive errors, a 429 at
time 0 backs off 300 s (its cap) but a following 503 at the same instant
rewrites `backoffUntil` to 120 s (the gateway cap), moving it
backwards. -/
theorem C6_counterexample :
    (recordRequest (handle429Error limInit 0) 1).backoffUntil = 2000 ∧
    (1 : Int) < 2000 ∧
    (handleServerError (handle429Error limErr8 0) 0 503).backoffUntil <
      (handle429Error limErr8 0).backoffUntil := by
  refine ⟨rfl, by decide, by decide⟩

/-- C7: a cached salon-details entry older than the one-week retention
window is reported absent by the next read and deleted by that same read
(other keys untouched); an entry within the window is returned unchanged
with the store untouched. -/
theorem C7_cache_lazy_expiry (store : CacheStore) (now : Int) (placeId : Option String)
    (nm model : String) (e : CachedSalonDetails)
    (hfound : store (getSalonDetailsCacheKey placeId nm model) = some e) :
    (isExpired now e.timestamp = true →
      (getSalonDetails store now placeId nm model).1 = none ∧
      (getSalonDetails store now placeId nm model).2
        (getSalonDetailsCacheKey placeId nm model) = none ∧
      ∀ k, k ≠ getSalonDetailsCacheKey placeId nm model →
        (getSalonDetails store now placeId nm model).2 k = store k) ∧
    (isExpired now e.timestamp = false →
      (getSalonDetails store now placeId nm model).1 = some e.salon ∧
      (getSalonDetails store now placeId nm model).2 = store) := by
  constructor
  · intro hexp
    unfold getSalonDetails
    dsimp only
    rw [hfound]
    simp only [hexp, if_true]
    refine ⟨by trivial, by simp, ?_⟩
    intro k hk
    simp [hk]
  · intro hexp
    unfold getSalonDetails
    dsimp only
    rw [hfound]
    simp [hexp]

/-- One concrete stored entry for the C7 witness. -/
def sampleEntry : CachedSalonDetails :=
  { salon := { name := "Glow Girl" }, timestamp := 0, model := "sonar" }

/-- A store holding exactly the sample entry under its derived key. -/
def sampleStore : CacheStore := fun k =>
  if k = getSalonDetailsCacheKey none "Glow Girl" "sonar" then some sampleEntry else none

/-- C7 witness: read the week-old entry one millisecond past the window
(it is absent and deleted) and at the window's edge (it is returned). -/
theorem C7_witness :
    (getSalonDetails sampleStore 604800001 none "Glow Girl" "sonar").1 = none ∧
    (getSalonDetails sampleStore 604800001 none "Glow Girl" "sonar").2
      (getSalonDetailsCacheKey none "Glow Girl" "sonar") = none ∧
    (getSalonDetails sampleStore 604800000 none "Glow Girl" "sonar").1 =
      some sampleEntry.salon := by
  have h1 := C7_cache_lazy_expiry sampleStore 604800001 none "Glow Girl" "sonar"
    sampleEntry (by rfl)
  have h2 := C7_cache_lazy_expiry sampleStore 604800000 none "Glow Girl" "sonar"
    sampleEntry (by rfl)
  exact ⟨(h1.1 (by decide)).1, (h1.1 (by decide)).2.1, (h2.2 (by decide)).1⟩

/-- C8 (amended): with jitter in [0, 1s), the backoff at attempt `n` is
`min(base_b * 2^n + jitter, cap_b)` with base 2 s and cap 10 min for
authentication (401), base 3 s and cap 10 min for server errors (500),
base 1 s for the transient bucket — capped at 2 min for the gateway
statuses 502/503/504 but at the 10-minute default for network failures
carrying no HTTP status; and the rate-limited (429) bucket, driven by the
limiter itself, backs off at most 5 minutes. -/
theorem C8_backoff_curves (n : Nat) (j : Rat) (h0 : 0 ≤ j) (h1 : j < 1000) :
    calculateBackoff n 2000 j (some 401) = min (2000 * 2 ^ n + j) 600000 ∧
    calculateBackoff n 3000 j (some 500) = min (3000 * 2 ^ n + j) 600000 ∧
    calculateBackoff n 1000 j (some 502) = min (1000 * 2 ^ n + j) 120000 ∧
    calculateBackoff n 1000 j (some 503) = min (1000 * 2 ^ n + j) 120000 ∧
    calculateBackoff n 1000 j (some 504) = min (1000 * 2 ^ n + j) 120000 ∧
    calculateBackoff n 1000 j none = min (1000 * 2 ^ n + j) 600000 ∧
    ∀ st now, (handle429Error st now).backoffUntil - now ≤ 300000 := by
  refine ⟨by simp [calculateBackoff], by simp [calculateBackoff], by simp [calculateBackoff],
    by simp [calculateBackoff], by simp [calculateBackoff], by simp [calculateBackoff], ?_⟩
  intro st now
  show now + ((min (2 ^ (st.consecutiveErrors + 1)) 300 * 1000 : Nat) : Int) - now ≤ 300000
  have hle : (min (2 ^ (st.consecutiveErrors + 1)) 300 * 1000 : Nat) ≤ 300000 :=
    Nat.mul_le_mul_right 1000 (Nat.min_le_right _ _)
  omega

/-- C8 witness: the authentication curve at attempt 2 with 500 ms of
jitter. -/
theorem C8_witness :
    calculateBackoff 2 2000 500 (some 401) = min (2000 * 2 ^ 2 + 500) 600000 :=
  (C8_backoff_curves 2 500 (by norm_num) (by norm_num)).1

/-- C8 counterexample: the claim puts transient network failures in the
2-minute-cap bucket, but the code's 2-minute cap applies only to the
gateway statuses 502/503/504; a network failure with no HTTP status falls
into the 10-minute default cap, so at attempt 10 the code waits 600 s
where the claim's formula yields 120 s. -/
theorem C8_counterexample :
    calculateBackoff 10 1000 0 none = 600000 ∧
    min ((1000 : Rat) * 2 ^ 10 + 0) 120000 = 120000 ∧
    (600000 : Rat) ≠ 120000 := by
  refine ⟨?_, ?_, by norm_num⟩
  · show min ((1000 : Rat) * 2 ^ 10 + 0) 600000 = 600000
    rw [min_eq_right (by norm_num)]
  · rw [min_eq_right (by norm_num)]

/-- First-occurrence search fails exactly when the all-occurrences list is
empty. -/
theorem subIdxAux_none_iff (pat : List Char) :
    ∀ (cs : List Char) (i : Nat), subIdxAux pat cs i = none ↔ subIdxAll pat cs i = []
  | [], i => by
    by_cases hp : pat.isEmpty <;> simp [subIdxAux, subIdxAll, hp]
  | c :: cs, i => by
    by_cases h : listStarts pat (c :: cs)
    · simp [subIdxAux, subIdxAll, h]
    · simp only [subIdxAux, subIdxAll, h, Bool.false_eq_true, if_false]
      exact subIdxAux_none_iff pat cs (i + 1)

/-- C9 (amended): for every response text whose last `</think>` is
followed by text that strictly parses as JSON, provided the text does not
itself strictly parse (so the direct strategy abstains), extraction
succeeds via the reasoning-wrapper-stripping strategy and returns exactly
the parsed value of the JSON following that closing marker — under either
shape expectation.  (The original claim, quantified over a closing marker
matching the opening one, fails when a later `</think>` occurs inside the
trailing JSON: see the counterexample.) -/
theorem C9_wrapper_strip (content : String) (p : Nat) (v : Json)
    (hlast : jsLastIndexOf content "</think>" = some p)
    (hafter : jsonParse (jsTrim (jsDrop content (p + 8))) = some v)
    (hdirect : jsonParse (jsTrim content) = none) :
    parseJsonResponse content true = some (.afterThink, v) ∧
    parseJsonResponse content false = some (.afterThink, v) := by
  have hs1 : strat1 content = none := by
    unfold strat1
    dsimp only
    split
    · exact hdirect
    · rfl
  have hinc : jsIncludes content "</think>" = true := by
    unfold jsIncludes
    cases hq : jsIndexOf content "</think>" with
    | some i => rfl
    | none =>
      unfold jsIndexOf at hq
      unfold jsLastIndexOf at hlast
      rw [(subIdxAux_none_iff _ _ _).mp hq] at hlast
      cases hlast
  have hne : jsTrim (jsDrop content (p + 8)) ≠ "" := by
    intro hemp
    rw [hemp, show jsonParse "" = none from rfl] at hafter
    cases hafter
  have hs2 : strat2 content = some v := by
    unfold strat2
    simp only [hinc, Bool.or_true, if_true]
    rw [hlast]
    dsimp only
    rw [if_pos hne]
    exact hafter
  constructor <;>
    · unfold parseJsonResponse
      rw [hs1]
      dsimp only
      rw [hs2]

/-- C9 witness: the end-to-end scenario text — a reasoning wrapper
followed by a two-name JSON array — extracted via the wrapper-stripping
strategy. -/
theorem C9_witness :
    parseJsonResponse "<think>reasoning...</think>\n[\"Bella Hair\", \"1\"]" true =
      some (.afterThink, .arr [.str "Bella Hair", .str "1"]) :=
  (C9_wrapper_strip "<think>reasoning...</think>\n[\"Bella Hair\", \"1\"]" 19
    (.arr [.str "Bella Hair", .str "1"]) rfl rfl rfl).1

/-- The C9 counterexample text: a reasoning segment whose matching
closing marker is followed by strictly parseable JSON that itself
contains the closing marker inside a string. -/
def thinkContent : String := "<think>r</think>\x7b\"x\":\"a</think>b\"\x7d"

/-- C9 counterexample: on `thinkContent` the opening marker at index 0
matches the closing marker at index 8, and the text after it parses
strictly as JSON, so the claim requires the reasoning-wrapper-stripping
strategy to produce the result; but the code strips after the *last*
`</think>` (index 23, inside the JSON string), that parse fails, and the
value is recovered only by the strategy-4 structure scan. -/
theorem C9_counterexample :
    jsIndexOf thinkContent "<think>" = some 0 ∧
    jsIndexOf thinkContent "</think>" = some 8 ∧
    jsonParse (jsDrop thinkContent (8 + 8)) = some (.obj [("x", .str "a</think>b")]) ∧
    jsLastIndexOf thinkContent "</think>" = some 23 ∧
    parseJsonResponse thinkContent false =
      some (.structScan, .obj [("x", .str "a</think>b")]) ∧
    ParseStrategy.structScan ≠ ParseStrategy.afterThink := by
  refine ⟨rfl, rfl, rfl, rfl, rfl, by decide⟩

/-- C10 (amended): for every input name whose form after annotation
stripping is exactly "bella" compared case-insensitively (for example
"Bella (duplicate)"), the name-cleaning operation returns the fabricated
name "Bella Beauty Salon".  (The original claim's example
"Bella (incomplete listing)" is not such an input: the stripping regex
requires its keyword immediately before the closing parenthesis, so
"(incomplete listing)" is left in place — see the counterexample.) -/
theorem C10_bare_bella_fabricated (name : String)
    (h : lowerS (annotStrip name) = "bella") :
    cleanSalonName name = "Bella Beauty Salon" := by
  show jsTrim (collapseWs (stripTrailingDots
    (if lowerS (annotStrip name) = "bella" then "Bella Beauty Salon"
     else annotStrip name))) = "Bella Beauty Salon"
  rw [if_pos h]
  rfl

/-- C10 witness: "Bella (duplicate)" strips to "Bella" and is expanded to
the fabricated full name. -/
theorem C10_witness : cleanSalonName "Bella (duplicate)" = "Bella Beauty Salon" :=
  C10_bare_bella_fabricated "Bella (duplicate)" rfl

/-- C10 counterexample: the cleaning operation leaves the claim's example
"Bella (incomplete listing)" unchanged — the annotation regexes match a
parenthetical only when one of their keywords ends immediately before the
closing parenthesis, and "incomplete listing" ends in "listing" — so no
fabricated name is produced for it. -/
theorem C10_counterexample :
    cleanSalonName "Bella (incomplete listing)" = "Bella (incomplete listing)" ∧
    "Bella (incomplete listing)" ≠ "Bella Beauty Salon" := by
  refine ⟨rfl, by decide⟩
